import Mathlib

set_option maxHeartbeats 2000000
set_option maxRecDepth 4000

/-!
Shallow embedding of the content-extraction pipeline in `src/api/scrape.py`
(and the inlined variant in `src/dev_server.py`), together with proofs about
the claims of the specification.

Modelling conventions:
* Python strings are `List Char` (`Str`).
* A parsed HTML document (the tree produced by the external BeautifulSoup
  library from the fetched bytes) is a list of `Node` trees; tag names are
  assumed already lowercased, as `html.parser` produces them.
* JSON values (the results of `json.loads` / inputs of `json.dumps`) are the
  inductive `Json`.  Non-integer number literals are kept as their source
  lexeme (`numLex`), since floating-point formatting is out of scope.
* Network collaborators (the raw page fetch, the spec fetch, ScrapingBee) and
  the BeautifulSoup parse of a string are external; they enter as parameters.
* Code that can raise on malformed data (the OpenAPI summarizer and schema
  describer, which index into arbitrary JSON) is modelled in `Except Unit`,
  `.error ()` standing for a propagating Python exception.
-/

abbrev Str := List Char

def S (s : String) : Str := s.data

/-- Python `str.strip()` whitespace (the ASCII whitespace characters; exotic
Unicode whitespace is not modelled). -/
def isPySpace (c : Char) : Bool :=
  c = ' ' || c = '\t' || c = '\n' || c = '\r' || c = '\x0b' || c = '\x0c'

/-- Python `s.strip()`. -/
def pyStrip (s : Str) : Str :=
  ((s.dropWhile isPySpace).reverse.dropWhile isPySpace).reverse

def lowerStr (s : Str) : Str := s.map Char.toLower

def upperStr (s : Str) : Str := s.map Char.toUpper

def natStr (n : Nat) : Str := (Nat.repr n).data

/-- Python `sep.join(xs)` for a list of strings. -/
def joinSep (sep : Str) : List Str → Str
  | [] => []
  | [x] => x
  | x :: y :: xs => x ++ sep ++ joinSep sep (y :: xs)

/-- Substring test: does `pat` occur inside `hay`?  (Models an unanchored
regex search for a literal pattern.) -/
def containsSub (hay pat : Str) : Bool :=
  hay.tails.any (fun t => pat.isPrefixOf t)

def containsChar (s : Str) (c : Char) : Bool := s.any (fun d => d = c)

/-! ## Parsed HTML documents -/

/-- A node of the parse tree BeautifulSoup builds: an element with a tag name,
attributes and children, or a text node (NavigableString). -/
inductive Node where
  | elem (tag : Str) (attrs : List (Str × Str)) (children : List Node)
  | text (s : Str)

/-- The tags removed by `_extract_text` (scrape.py line 53). -/
def removedTags : List Str :=
  [ S "script", S "style", S "nav", S "footer", S "header", S "iframe", S "noscript" ]

def isRemovedElem : Node → Bool
  | .elem t _ _ => removedTags.contains t
  | .text _ => false

mutual

/-- Removal of the non-content subtrees (`tag.decompose()` over
`soup.find_all([...])`): every subtree rooted at a removed tag disappears. -/
def pruneNode : Node → Node
  | .text s => .text s
  | .elem t a cs => .elem t a (pruneList cs)

def pruneList : List Node → List Node
  | [] => []
  | c :: cs => (if isRemovedElem c then [] else [pruneNode c]) ++ pruneList cs

end

mutual

/-- All text-node strings below a node, in document order (the strings
`get_text` walks). -/
def stringsNode : Node → List Str
  | .text s => [s]
  | .elem _ _ cs => stringsList cs

def stringsList : List Node → List Str
  | [] => []
  | c :: cs => stringsNode c ++ stringsList cs

end

/-- BeautifulSoup `get_text(separator="\n", strip=True)`: strip each string,
drop the ones that become empty, join with the separator. -/
def getTextFrom (pieces : List Str) : Str :=
  joinSep (S "\n") ((pieces.map pyStrip).filter (fun p => !p.isEmpty))

def getTextNode (n : Node) : Str := getTextFrom (stringsNode n)

def getTextList (d : List Node) : Str := getTextFrom (stringsList d)

mutual

/-- BeautifulSoup `find`: first element (pre-order, document order)
satisfying the predicate.  `find` with a name or attrs matches tags only. -/
def findNode (p : Node → Bool) : Node → Option Node
  | .text _ => none
  | .elem t a cs =>
      if p (.elem t a cs) then some (.elem t a cs) else findList p cs

def findList (p : Node → Bool) : List Node → Option Node
  | [] => none
  | c :: cs =>
      match findNode p c with
      | some r => some r
      | none => findList p cs

end

def tagIs (t : Str) : Node → Bool
  | .elem tg _ _ => tg = t
  | .text _ => false

def hasAttr (k v : Str) : Node → Bool
  | .elem _ a _ => (a.lookup k) = some v
  | .text _ => false

/-- Truthiness of a bs4 node: `Tag.__bool__` returns `True` unconditionally
("A tag is non-None even if it has no contents"), so every element — even a
childless one — is truthy; a NavigableString subclasses `str`, so it is
truthy exactly when non-empty. -/
def truthyTag : Node → Bool
  | .elem _ _ _ => true
  | .text s => !s.isEmpty

/-- Python `a or b` on optional tags: the first truthy operand, else `b`.
Since found tags are always truthy, on `find` results this is first-not-None. -/
def orTag (a b : Option Node) : Option Node :=
  match a with
  | some n => if truthyTag n then some n else b
  | none => b

/-- Lines 57-58: `soup.find("main") or soup.find("article") or
soup.find(attrs={"role": "main"})` followed by the `if main:` truthiness
test.  Because a `Tag` is always truthy, this selects the first of the three
lookups that found anything — an empty `<main>` is still selected. -/
def selectMain (d : List Node) : Option Node :=
  let m := orTag (findList (tagIs (S "main")) d)
      (orTag (findList (tagIs (S "article")) d)
        (findList (hasAttr (S "role") (S "main")) d))
  match m with
  | some n => if truthyTag n then some n else none
  | none => none

/-- One replaced newline run: a maximal run of `n` newlines comes out as two
when `n ≥ 3` (the regex replacement) and unchanged otherwise. -/
def nlRun (n : Nat) : Str := List.replicate (if n ≥ 3 then 2 else n) '\n'

/-- Scanner for `re.sub(r"\n{3,}", "\n\n", text)` (the greedy regex rewrites
each maximal run of at least three newlines to exactly two): `n` counts the
newlines of the run currently being read; on leaving a run (or at the end)
the run is emitted through `nlRun`. -/
def collapseGo : Nat → Str → Str
  | n, [] => nlRun n
  | n, '\n' :: rest => collapseGo (n + 1) rest
  | n, c :: rest => nlRun n ++ c :: collapseGo 0 rest

/-- Collapse of 3-or-more newline runs to exactly two:
`re.sub(r"\n{3,}", "\n\n", text)` (lines 64, 196). -/
def collapseNL (s : Str) : Str := collapseGo 0 s

/-- Three consecutive newlines occur somewhere in the string (what the
collapse step is meant to eliminate). -/
def hasTriple : Str → Bool
  | c1 :: c2 :: c3 :: rest =>
      (c1 = '\n' && c2 = '\n' && c3 = '\n') || hasTriple (c2 :: c3 :: rest)
  | _ => false

def truncMarker : Str := S "\n\n[Content truncated...]"

/-- The shared truncation step (lines 66-67, 197-198, 418-419). -/
def truncate12000 (s : Str) : Str :=
  if s.length > 12000 then s.take 12000 ++ truncMarker else s

/-- Model of `_extract_text` before its final truncation: remove non-content subtrees,
pick the main-content container, flatten to text, collapse newlines. -/
def _extract_text_pre (d : List Node) : Str :=
  let pruned := pruneList d
  let txt :=
    match selectMain pruned with
    | some n => getTextNode n
    | none => getTextList pruned
  collapseNL txt

/-- Model of `_extract_text` (scrape.py lines 48-69). -/
def _extract_text (d : List Node) : Str :=
  truncate12000 (_extract_text_pre d)

/-- The same extraction with the removal step omitted (used to state that
removal is the only thing `_extract_text` adds over plain flattening). -/
def extractCore (d : List Node) : Str :=
  truncate12000 (collapseNL
    (match selectMain d with
     | some n => getTextNode n
     | none => getTextList d))

mutual

/-- No element anywhere in the tree carries a removed tag. -/
def cleanNode : Node → Bool
  | .text _ => true
  | .elem t _ cs => !(removedTags.contains t) && cleanList cs

def cleanList : List Node → Bool
  | [] => true
  | c :: cs => cleanNode c && cleanList cs

end

mutual

/-- The text-node strings of the document that lie outside every
removed-tag subtree, defined directly on the original tree. -/
def stringsOutsideNode : Node → List Str
  | .text s => [s]
  | .elem t _ cs => if removedTags.contains t then [] else stringsOutsideList cs

def stringsOutsideList : List Node → List Str
  | [] => []
  | c :: cs => stringsOutsideNode c ++ stringsOutsideList cs

end

/-! ## JSON values -/

/-- A parsed JSON value (the result of `json.loads`).  Python dicts preserve
insertion order, so objects are association lists with distinct keys.
Non-integer numeric literals keep their source lexeme (`numLex`): modelling
IEEE-754 parsing/printing is out of scope and no claim involves them. -/
inductive Json where
  | null
  | bool (b : Bool)
  | num (n : Int)
  | numLex (s : Str)
  | str (s : Str)
  | arr (elems : List Json)
  | obj (fields : List (Str × Json))

/-- Lookup of a key in a (modelled) Python dict. -/
def jLookup (fs : List (Str × Json)) (k : Str) : Option Json :=
  match fs with
  | [] => none
  | (k1, v) :: rest => if k1 = k then some v else jLookup rest k

/-- Python `d.get(k, default)` on a value known to be a dict. -/
def jGetD (fs : List (Str × Json)) (k : Str) (d : Json) : Json :=
  (jLookup fs k).getD d

/-- Python computations that may raise (`.error ()` is a propagating
exception such as `AttributeError`/`TypeError`). -/
abbrev Py (α : Type) := Except Unit α

def pyThrow {α : Type} : Py α := Except.error ()

/-- Python `v.get(k, default)`: raises `AttributeError` on non-dicts. -/
def pyGetD (v : Json) (k : Str) (d : Json) : Py Json :=
  match v with
  | .obj fs => Except.ok (jGetD fs k d)
  | _ => pyThrow

/-- Python `v.get(k)` (default `None` distinguished as `none`). -/
def pyGetOpt (v : Json) (k : Str) : Py (Option Json) :=
  match v with
  | .obj fs => Except.ok (jLookup fs k)
  | _ => pyThrow

/-- Python `v.items()` on a value used as a dict. -/
def pyItems (v : Json) : Py (List (Str × Json)) :=
  match v with
  | .obj fs => Except.ok fs
  | _ => pyThrow

/-- Python `list(v.keys())` on a value used as a dict. -/
def pyKeys (v : Json) : Py (List Str) :=
  match v with
  | .obj fs => Except.ok (fs.map (fun kv => kv.1))
  | _ => pyThrow

/-- Python truthiness of a JSON-shaped value.  A non-integer number is falsy
exactly when it denotes zero; its lexeme then has no nonzero digit (and is
not a NaN/Infinity literal). -/
def pyTruthy : Json → Bool
  | .null => false
  | .bool b => b
  | .num n => n ≠ 0
  | .numLex s => s.any (fun c => ('1' ≤ c && c ≤ '9') || c = 'N' || c = 'I')
  | .str s => !s.isEmpty
  | .arr xs => !xs.isEmpty
  | .obj fs => !fs.isEmpty

/-- Python `len(v)`: defined for strings, lists and dicts, `TypeError`
otherwise. -/
def pyLen : Json → Py Nat
  | .str s => Except.ok s.length
  | .arr xs => Except.ok xs.length
  | .obj fs => Except.ok fs.length
  | _ => pyThrow

/-- Python `v[:n]`: defined for strings and lists, `TypeError` otherwise. -/
def pySlice (v : Json) (n : Nat) : Py Json :=
  match v with
  | .str s => Except.ok (.str (s.take n))
  | .arr xs => Except.ok (.arr (xs.take n))
  | _ => pyThrow

/-- Python `a + b` as used in the source: string+string and list+list
concatenate, anything else raised at a use site is `TypeError`. -/
def pyAdd (a b : Json) : Py Json :=
  match a, b with
  | .str x, .str y => Except.ok (.str (x ++ y))
  | .arr x, .arr y => Except.ok (.arr (x ++ y))
  | .num x, .num y => Except.ok (.num (x + y))
  | _, _ => pyThrow

/-- Python `key in v` for a string key: key test for dicts, substring test
for strings, membership test for lists, `TypeError` otherwise. -/
def pyContains (v : Json) (k : Str) : Py Bool :=
  match v with
  | .obj fs => Except.ok ((jLookup fs k).isSome)
  | .str s => Except.ok (containsSub s k)
  | .arr xs => Except.ok (xs.any (fun e => match e with | .str t => t = k | _ => false))
  | _ => pyThrow

/-- Python `v[k]` for a string key on a value already known to contain `k`
in the `pyContains` sense: indexing anything but a dict with a string raises
`TypeError`. -/
def pyIndex (v : Json) (k : Str) : Py Json :=
  match v with
  | .obj fs =>
      match jLookup fs k with
      | some r => Except.ok r
      | none => pyThrow
  | _ => pyThrow

/-- Python iteration `for e in v`: list elements, string characters,
dict keys; `TypeError` otherwise. -/
def pyIter (v : Json) : Py (List Json) :=
  match v with
  | .arr xs => Except.ok xs
  | .str s => Except.ok (s.map (fun c => .str [c]))
  | .obj fs => Except.ok (fs.map (fun kv => .str kv.1))
  | _ => pyThrow

def hexDigit (n : Nat) : Char :=
  if n < 10 then Char.ofNat (48 + n) else Char.ofNat (87 + (n - 10))

/-- A JSON `\uXXXX` escape for a code unit below 0x10000. -/
def uEscape (n : Nat) : Str :=
  [ '\\', 'u', hexDigit (n / 4096 % 16), hexDigit (n / 256 % 16),
    hexDigit (n / 16 % 16), hexDigit (n % 16) ]

/-- Escaping of one character by `json.dumps` (default `ensure_ascii=True`). -/
def jsonEscChar (c : Char) : Str :=
  if c = '"' then [ '\\', '"' ]
  else if c = '\\' then [ '\\', '\\' ]
  else if c = '\n' then [ '\\', 'n' ]
  else if c = '\r' then [ '\\', 'r' ]
  else if c = '\t' then [ '\\', 't' ]
  else if c = '\x08' then [ '\\', 'b' ]
  else if c = '\x0c' then [ '\\', 'f' ]
  else if c.toNat < 32 then uEscape c.toNat
  else if c.toNat < 127 then [c]
  else if c.toNat < 65536 then uEscape c.toNat
  else
    uEscape (55296 + (c.toNat - 65536) / 1024) ++ uEscape (56320 + (c.toNat - 65536) % 1024)

def jsonEscStr (s : Str) : Str :=
  '"' :: (s.flatMap jsonEscChar) ++ [ '"' ]

def intStr (n : Int) : Str := (toString n).data

mutual

/-- Model of `json.dumps(v)` with the default separators.  A `numLex` is written back
as its lexeme (Python would print the float's repr; no claim depends on
float formatting). -/
def dumps : Json → Str
  | .null => S "null"
  | .bool b => if b then S "true" else S "false"
  | .num n => intStr n
  | .numLex s => s
  | .str s => jsonEscStr s
  | .arr xs => '[' :: dumpsElems xs ++ [ ']' ]
  | .obj fs => '\x7b' :: dumpsFields fs ++ [ '\x7d' ]

def dumpsElems : List Json → Str
  | [] => []
  | [x] => dumps x
  | x :: y :: xs => dumps x ++ S ", " ++ dumpsElems (y :: xs)

def dumpsFields : List (Str × Json) → Str
  | [] => []
  | [(k, v)] => jsonEscStr k ++ S ": " ++ dumps v
  | (k, v) :: f :: fs => jsonEscStr k ++ S ": " ++ dumps v ++ S ", " ++ dumpsFields (f :: fs)

end

/-- Python `repr` of a string (single-quoted; the escapes relevant here). -/
def pyReprStr (s : Str) : Str :=
  let q := Char.ofNat 39
  let esc := fun (c : Char) =>
    if c = q then [ '\\', q ]
    else if c = '\\' then [ '\\', '\\' ]
    else if c = '\n' then [ '\\', 'n' ]
    else if c = '\r' then [ '\\', 'r' ]
    else if c = '\t' then [ '\\', 't' ]
    else [c]
  q :: (s.flatMap esc) ++ [q]

mutual

/-- Python `repr` of a JSON-shaped value (used by `str()` on containers). -/
def pyRepr : Json → Str
  | .null => S "None"
  | .bool b => if b then S "True" else S "False"
  | .num n => intStr n
  | .numLex s => s
  | .str s => pyReprStr s
  | .arr xs => '[' :: pyReprElems xs ++ [ ']' ]
  | .obj fs => '\x7b' :: pyReprFields fs ++ [ '\x7d' ]

def pyReprElems : List Json → Str
  | [] => []
  | [x] => pyRepr x
  | x :: y :: xs => pyRepr x ++ S ", " ++ pyReprElems (y :: xs)

def pyReprFields : List (Str × Json) → Str
  | [] => []
  | [(k, v)] => pyReprStr k ++ S ": " ++ pyRepr v
  | (k, v) :: f :: fs => pyReprStr k ++ S ": " ++ pyRepr v ++ S ", " ++ pyReprFields (f :: fs)

end

/-- Python `str(v)` / f-string interpolation of a JSON-shaped value. -/
def pyStr (v : Json) : Str :=
  match v with
  | .str s => s
  | other => pyRepr other

/-- Python `sep.join(v)`: every iterated element must be a string
(characters of a string, or keys of a dict, are strings). -/
def pyJoin (sep : Str) (v : Json) : Py Str :=
  match v with
  | .arr xs => joinStrElems sep xs
  | .str s => Except.ok (joinSep sep (s.map (fun c => [c])))
  | .obj fs => Except.ok (joinSep sep (fs.map (fun kv => kv.1)))
  | _ => pyThrow
where
  joinStrElems (sep : Str) (xs : List Json) : Py Str :=
    match xs with
    | [] => Except.ok []
    | .str s :: rest =>
        match joinStrElems sep rest with
        | .ok r => Except.ok (match rest with | [] => s | _ => s ++ sep ++ r)
        | .error e => Except.error e
    | _ => pyThrow

/-! ## Structured-Data Extractor: `_traverse_json` (lines 72-131) -/

/-- The priority keys of the dict walk (lines 99-103). -/
def priorityKeys : List Str :=
  [ S "content", S "body", S "text", S "description", S "html", S "markdown",
    S "raw", S "title", S "heading", S "paragraph", S "excerpt", S "summary",
    S "articleBody", S "mainEntity", S "pageContent", S "renderedContent" ]

/-- The metadata keys skipped by the dict walk (lines 114-121). -/
def skipKeys : List Str :=
  [ S "id", S "url", S "href", S "src", S "slug", S "path", S "route",
    S "buildId", S "assetPrefix", S "scriptLoader", S "locale", S "locales",
    S "defaultLocale", S "domainLocales", S "isPreview", S "runtimeConfig",
    S "gssp", S "gip", S "appGip", S "isFallback", S "dynamicIds",
    S "customServer", S "css", S "className", S "style", S "image",
    S "icon", S "logo", S "favicon", S "og", S "twitter", S "meta" ]

/-- The noise prefixes of line 82. -/
def noisePrefixes : List Str :=
  [ S "http://", S "https://", S "/", S "data:", S "\x7b", S "[", S "/*", S "//" ]

def startsWithAny (s : Str) (ps : List Str) : Bool :=
  ps.any (fun p => p.isPrefixOf s)

/-- Match of `re.match(r"^[a-f0-9\-]{20,}$", s)` (line 83): at least 20 characters,
all lowercase-hex or hyphen.  (The stripped string carries no trailing
newline, so the `$` subtlety is vacuous.) -/
def uuidHashMatch (s : Str) : Bool :=
  s.length ≥ 20 && s.all (fun c => ('a' ≤ c && c ≤ 'f') || ('0' ≤ c && c ≤ '9') || c = '-')

def isWordChar (c : Char) : Bool := c.isAlpha || c.isDigit || c = '_'

def filePathExts : List Str :=
  [ S "js", S "css", S "png", S "jpg", S "svg", S "woff", S "ico" ]

/-- Match of `re.match(r"^[\w./\-]+\.(js|css|png|jpg|svg|woff|ico)$", s)` (line 84). -/
def filePathMatch (s : Str) : Bool :=
  s.all (fun c => isWordChar c || c = '.' || c = '/' || c = '-') &&
  filePathExts.any (fun e => ('.' :: e).isSuffixOf s && s.length > e.length + 1)

/-- The string branch of `_traverse_json` (lines 77-91).  `pg` is the
external BeautifulSoup collaborator: `pg t` models
`BeautifulSoup(t, "html.parser").get_text(separator="\n", strip=True)`. -/
def traverseStr (pg : Str → Str) (s : Str) : Str :=
  let stripped := pyStrip s
  if stripped.length < 30 || startsWithAny stripped noisePrefixes ||
      uuidHashMatch stripped || filePathMatch stripped then []
  else if containsChar stripped '<' && containsChar stripped '>' then pg stripped
  else stripped

/-- Model of `_traverse_json` with explicit structural fuel.  The source guard
`if depth > 15: return ""` bounds the recursion depth from any starting
depth by 17 levels, so with fuel 17 the fuel-0 branch is unreachable and the
function agrees with the source everywhere. -/
def traverseFuel (pg : Str → Str) : Nat → Json → Nat → Str
  | 0, _, _ => []
  | Nat.succ fuel, v, depth =>
    if depth > 15 then []
    else
      match v with
      | .str s => traverseStr pg s
      | .arr xs =>
          joinSep (S "\n")
            ((xs.map (fun item => traverseFuel pg fuel item (depth + 1))).filter
              (fun p => !p.isEmpty))
      | .obj fs =>
          let results1 := priorityKeys.filterMap (fun k =>
            match jLookup fs k with
            | some val =>
                let r := traverseFuel pg fuel val (depth + 1)
                if r.isEmpty then none else some r
            | none => none)
          let results2 := fs.filterMap (fun kv =>
            if priorityKeys.contains kv.1 || skipKeys.contains kv.1 then none
            else
              let r := traverseFuel pg fuel kv.2 (depth + 1)
              if r.isEmpty then none else some r)
          joinSep (S "\n") (results1 ++ results2)
      | _ => []

/-- Model of `_traverse_json(obj, depth)` (lines 72-131). -/
def _traverse_json (pg : Str → Str) (v : Json) (depth : Nat) : Str :=
  traverseFuel pg 17 v depth

/-! ## Schema Describer: `_describe_schema` (lines 424-448) -/

/-- Model of `ref.split("/")[-1]`. -/
def lastSlashComponent (s : Str) : Str := (s.splitOn '/').getLastD []

/-- Python `==` between a JSON-shaped value and a string literal. -/
def jEqStr (v : Json) (s : Str) : Bool :=
  match v with
  | .str t => t = s
  | _ => false

/-- Model of `_describe_schema` with explicit structural fuel.  The guard
`if depth > 3: return ""` bounds recursion from any starting depth by 5
levels, so with fuel 5 the fuel-0 branch is unreachable.  The `$ref` branch
never recurses (it only previews property names), which is why the function
terminates on self-referential schemas.  Returns `Py Json` because the final
`return schema_type` hands back whatever `.get("type", "")` produced. -/
def describeFuel : Nat → Json → Json → Nat → Py Json
  | 0, _, _, _ => Except.ok (.str [])
  | Nat.succ fuel, schema, all_schemas, depth =>
    if depth > 3 then Except.ok (.str [])
    else do
      let hasRef ← pyContains schema (S "$ref")
      if hasRef then do
        let ref ← pyIndex schema (S "$ref")
        match ref with
        | .str r =>
            let name := lastSlashComponent r
            if depth < 2 then do
              let inn ← pyContains all_schemas name
              if inn then do
                let target ← pyIndex all_schemas name
                let props ← pyGetD target (S "properties") (.obj [])
                if pyTruthy props then do
                  let ks ← pyKeys props
                  Except.ok (.str (name ++ S " (" ++ joinSep (S ", ") (ks.take 8) ++
                    (if ks.length > 8 then S "..." else []) ++ S ")"))
                else Except.ok (.str name)
              else Except.ok (.str name)
            else Except.ok (.str name)
        | _ => pyThrow
      else do
        let schema_type ← pyGetD schema (S "type") (.str [])
        if jEqStr schema_type (S "array") then do
          let items ← pyGetD schema (S "items") (.obj [])
          let inner ← describeFuel fuel items all_schemas (depth + 1)
          Except.ok (.str (S "array of " ++ pyStr inner))
        else if jEqStr schema_type (S "object") then do
          let props ← pyGetD schema (S "properties") (.obj [])
          if pyTruthy props then do
            let ks ← pyKeys props
            Except.ok (.str (S "object (" ++ joinSep (S ", ") (ks.take 8) ++ S ")"))
          else Except.ok (.str (S "object"))
        else Except.ok schema_type

/-- Model of `_describe_schema(schema, all_schemas, depth)` (lines 424-448). -/
def _describe_schema (schema all_schemas : Json) (depth : Nat) : Py Json :=
  describeFuel 5 schema all_schemas depth

/-! ## Spec Summarizer: `_summarize_openapi` (lines 276-421) -/

/-- The keyword vocabulary (lines 295-300), exactly as in the source; the
two entries containing `.?` are regex fragments. -/
def keywordLits : List Str :=
  [ S "bill", S "billing", S "third.?party", S "duty", S "duties", S "tax",
    S "vat", S "eori", S "ioss", S "customs", S "carrier", S "ship", S "freight",
    S "account", S "invoice", S "tariff", S "hts", S "hs.?code", S "landed",
    S "ddt", S "ddp", S "dap", S "charge", S "fee", S "cost" ]

/-- Match of `a.?b` at the head of `t` (`.` is any character except a
newline, made optional by `?`). -/
def dotQAt (a b t : Str) : Bool :=
  a.isPrefixOf t &&
    (let r := t.drop a.length
     b.isPrefixOf r ||
       (match r with
        | c :: r2 => !(c = '\n') && b.isPrefixOf r2
        | [] => false))

/-- Unanchored search for `a.?b` in `s`. -/
def dotQFind (a b s : Str) : Bool := s.tails.any (dotQAt a b)

/-- Search for one alternation branch of the keyword pattern in an
already-lowercased string. -/
def kwPatSearch (pat l : Str) : Bool :=
  if pat = S "third.?party" then dotQFind (S "third") (S "party") l
  else if pat = S "hs.?code" then dotQFind (S "hs") (S "code") l
  else containsSub l pat

/-- Model of `keyword_pattern.search(s)` (line 301): the alternation of
`keywordLits`, compiled with `re.IGNORECASE`. -/
def kwSearch (s : Str) : Bool :=
  let l := lowerStr s
  keywordLits.any (fun p => kwPatSearch p l)

/-- Model of `spec.get("components", {}).get("schemas", {})` (line 338 etc). -/
def schemasOf (spec : Json) : Py Json := do
  let comp ← pyGetD spec (S "components") (.obj [])
  pyGetD comp (S "schemas") (.obj [])

/-- The combined text `f"{path} {summary} {description} {join-of-tags}"` of lines 317-320. -/
def combinedFor (path : Str) (dfs : List (Str × Json)) : Py Str := do
  let summary := jGetD dfs (S "summary") (.str [])
  let description := jGetD dfs (S "description") (.str [])
  let tags := jGetD dfs (S "tags") (.arr [])
  let tj ← pyJoin (S " ") tags
  Except.ok (path ++ S " " ++ pyStr summary ++ S " " ++ pyStr description ++ S " " ++ tj)

/-- The `if description:` chunk of an endpoint entry (lines 326-328):
`description[:300] + ("..." if len(description) > 300 else "")`. -/
def descSnippet (description : Json) : Py Str :=
  if pyTruthy description then do
    let sl ← pySlice description 300
    let n ← pyLen description
    let d ← pyAdd sl (.str (if n > 300 then S "..." else []))
    Except.ok (S "\nDescription: " ++ pyStr d)
  else Except.ok []

/-- The `if tags:` chunk of an endpoint entry (lines 329-330):
`f"\nTags: {', '.join(tags)}"`. -/
def tagsSnippet (tags : Json) : Py Str :=
  if pyTruthy tags then do
    let tj ← pyJoin (S ", ") tags
    Except.ok (S "\nTags: " ++ tj)
  else Except.ok []

/-- The request-body chunk of an endpoint entry (lines 333-340). -/
def reqBodyPart (spec : Json) (dfs : List (Str × Json)) : Py Str :=
  let req := jGetD dfs (S "requestBody") (.obj [])
  if pyTruthy req then do
    let content ← pyGetD req (S "content") (.obj [])
    let citems ← pyItems content
    citems.foldlM (fun acc ctd => do
      let schema ← pyGetD ctd.2 (S "schema") (.obj [])
      let allS ← schemasOf spec
      let st ← _describe_schema schema allS 0
      Except.ok (acc ++ (if pyTruthy st then S "\nRequest body: " ++ pyStr st else []))) []
  else Except.ok []

/-- The 2xx-response chunk of an endpoint entry (lines 343-351). -/
def respPart (spec : Json) (dfs : List (Str × Json)) : Py Str := do
  let responses := jGetD dfs (S "responses") (.obj [])
  let ritems ← pyItems responses
  ritems.foldlM (fun acc strd => do
    if (S "2").isPrefixOf strd.1 then
      match strd.2 with
      | .obj rdfs => do
          let rc := jGetD rdfs (S "content") (.obj [])
          let citems ← pyItems rc
          citems.foldlM (fun acc2 ctd => do
            let schema ← pyGetD ctd.2 (S "schema") (.obj [])
            let allS ← schemasOf spec
            let st ← _describe_schema schema allS 0
            Except.ok (acc2 ++
              (if pyTruthy st then
                S "\nResponse (" ++ strd.1 ++ S "): " ++ pyStr st
               else []))) acc
      | _ => Except.ok acc
    else Except.ok acc) []

/-- The first line of an endpoint entry: `f"\n### {method.upper()} {path}"`. -/
def entryBase (method path : Str) : Str :=
  S "\n### " ++ upperStr method ++ S " " ++ path

/-- One iteration of the inner loop of lines 313-353: skip extension keys
and non-dict operations; compute the combined text; when the endpoint is
relevant, build its entry (the incremental `entry +=` appends of the source
are the concatenation of the chunks, by associativity). -/
def entryForMethod (spec : Json) (path_relevant : Bool) (path method : Str)
    (details : Json) : Py (Option Str) :=
  if (S "x-").isPrefixOf method then Except.ok none
  else
    match details with
    | .obj dfs => do
        let combined ← combinedFor path dfs
        if path_relevant || kwSearch combined then do
          let summary := jGetD dfs (S "summary") (.str [])
          let s1 := if pyTruthy summary then S "\nSummary: " ++ pyStr summary else []
          let s2 ← descSnippet (jGetD dfs (S "description") (.str []))
          let s3 ← tagsSnippet (jGetD dfs (S "tags") (.arr []))
          let s4 ← reqBodyPart spec dfs
          let s5 ← respPart spec dfs
          Except.ok (some (entryBase method path ++ s1 ++ s2 ++ s3 ++ s4 ++ s5))
        else Except.ok none
    | _ => Except.ok none

/-- The inner loop over one path's methods; `path_relevant` is computed once
per path (line 311). -/
def entriesForPath (spec : Json) (path : Str) (methods : Json) : Py (List Str) :=
  match methods with
  | .obj ms =>
      ms.foldlM (fun acc md => do
        match ← entryForMethod spec (kwSearch path) path md.1 md.2 with
        | some e => Except.ok (acc ++ [e])
        | none => Except.ok acc) []
  | _ => Except.ok []

/-- The `relevant_paths` list built by the loop of lines 307-353. -/
def relevant_paths_of (spec : Json) (pathItems : List (Str × Json)) : Py (List Str) :=
  pathItems.foldlM (fun acc pm => do
    let es ← entriesForPath spec pm.1 pm.2
    Except.ok (acc ++ es)) []

/-- One relevant schema's entry (lines 364-395). -/
def schemaEntry (name : Str) (sfs : List (Str × Json)) : Py Str := do
  let desc := jGetD sfs (S "description") (.str [])
  let props := jGetD sfs (S "properties") (.obj [])
  let prop_names ← pyKeys props
  let e1 := S "\n### Schema: " ++ name
  let e2 ←
    if pyTruthy desc then do
      let d ← pySlice desc 300
      Except.ok (S "\nDescription: " ++ pyStr d)
    else Except.ok ([] : Str)
  if prop_names.isEmpty then Except.ok (e1 ++ e2)
  else do
    let relevant_props := prop_names.filter kwSearch
    let e3 :=
      if relevant_props.isEmpty then []
      else S "\nRelevant fields: " ++ joinSep (S ", ") relevant_props
    let e4 :=
      if prop_names.length ≤ 20 then S "\nAll fields: " ++ joinSep (S ", ") prop_names
      else S "\nFields (" ++ natStr prop_names.length ++ S " total): " ++
        joinSep (S ", ") (prop_names.take 20) ++ S "..."
    let e5 ← relevant_props.foldlM (fun acc pn => do
      let prop ← pyIndex props pn
      match prop with
      | .obj ppfs => do
          let prop_type := jGetD ppfs (S "type") (.str [])
          let d1 := S "  - " ++ pn ++ S " (" ++ pyStr prop_type ++ S ")"
          let prop_desc := jGetD ppfs (S "description") (.str [])
          let d2 ←
            if pyTruthy prop_desc then do
              let dd ← pySlice prop_desc 200
              Except.ok (S ": " ++ pyStr dd)
            else Except.ok ([] : Str)
          let prop_enum := jGetD ppfs (S "enum") (.arr [])
          let d3 ←
            if pyTruthy prop_enum then do
              let sl ← pySlice prop_enum 10
              let es ← pyIter sl
              Except.ok (S " [enum: " ++ joinSep (S ", ") (es.map pyStr) ++ S "]")
            else Except.ok ([] : Str)
          Except.ok (acc ++ S "\n" ++ (d1 ++ d2 ++ d3))
      | _ => Except.ok acc) []
    Except.ok (e1 ++ e2 ++ e3 ++ e4 ++ e5)

/-- The `relevant_schemas` list built by the loop of lines 356-395.  A
schema is relevant when its name or the first 500 characters of its
serialized form match the keyword pattern. -/
def relevant_schemas_of (spec : Json) : Py (List Str) := do
  let schemas ← schemasOf spec
  let sItems ← pyItems schemas
  sItems.foldlM (fun acc ns => do
    match ns.2 with
    | .obj sfs =>
        let schema_str := dumps (.obj sfs)
        if kwSearch ns.1 || kwSearch (schema_str.take 500) then do
          let e ← schemaEntry ns.1 sfs
          Except.ok (acc ++ [e])
        else Except.ok acc
    | _ => Except.ok acc) []

/-- The info lines of the output (lines 285-292). -/
def infoParts (spec : Json) : Py (List Str) := do
  let info ← pyGetD spec (S "info") (.obj [])
  let t ← pyGetOpt info (S "title")
  let p1 ←
    match t with
    | some tv =>
        if pyTruthy tv then do
          let ver ← pyGetD info (S "version") (.str (S "unknown"))
          Except.ok [ S "API: " ++ pyStr tv ++ S " (version " ++ pyStr ver ++ S ")" ]
        else Except.ok []
    | none => Except.ok ([] : List Str)
  let dOpt ← pyGetOpt info (S "description")
  let p2 ←
    match dOpt with
    | some dv =>
        if pyTruthy dv then do
          let n ← pyLen dv
          let d2 ←
            if n > 500 then do
              let sl ← pySlice dv 500
              pyAdd sl (.str (S "..."))
            else Except.ok dv
          Except.ok [ S "Description: " ++ pyStr d2 ]
        else Except.ok []
    | none => Except.ok ([] : List Str)
  Except.ok (p1 ++ p2)

/-- The all-endpoints fallback lines (lines 403-409), emitted when no
endpoint matched the keyword pattern. -/
def fallbackLines (pathItems : List (Str × Json)) : List Str :=
  (pathItems.take 50).flatMap (fun pm =>
    match pm.2 with
    | .obj ms =>
        ms.filterMap (fun md =>
          match md.2 with
          | .obj dfs =>
              if (S "x-").isPrefixOf md.1 then none
              else some (S "- " ++ upperStr md.1 ++ S " " ++ pm.1 ++ S ": " ++
                pyStr (jGetD dfs (S "summary") (.str [])))
          | _ => none)
    | _ => [])

/-- The endpoints section of the output (lines 398-409): the relevant
entries capped at 30 behind a header, or the fallback listing. -/
def endpointSection (pathItems : List (Str × Json)) (rel : List Str) : List Str :=
  if rel.isEmpty then
    (S "\n## All API Endpoints (" ++ natStr pathItems.length ++ S " total)") ::
      fallbackLines pathItems
  else
    (S "\n## Relevant API Endpoints (" ++ natStr rel.length ++ S " found)") :: rel.take 30

/-- The data-models section of the output (lines 411-413), capped at 20. -/
def schemaSection (relS : List Str) : List Str :=
  if relS.isEmpty then []
  else (S "\n## Relevant Data Models (" ++ natStr relS.length ++ S " found)") :: relS.take 20

/-- Model of `_summarize_openapi` before its final truncation (lines 282-415). -/
def summarize_pre (spec : Json) : Py Str := do
  let ip ← infoParts spec
  let pathsJ ← pyGetD spec (S "paths") (.obj [])
  let pitems ← pyItems pathsJ
  let rel ← relevant_paths_of spec pitems
  let relS ← relevant_schemas_of spec
  Except.ok (joinSep (S "\n") (ip ++ endpointSection pitems rel ++ schemaSection relS))

/-- Model of `_summarize_openapi(spec)` (lines 276-421). -/
def _summarize_openapi (spec : Json) : Py Str :=
  (summarize_pre spec).map truncate12000

/-! ## `json.loads` -/

def isJsonWs (c : Char) : Bool := c = ' ' || c = '\t' || c = '\n' || c = '\r'

def skipJsonWs (s : Str) : Str := s.dropWhile isJsonWs

def natOfDigits (ds : Str) : Nat := ds.foldl (fun a c => a * 10 + (c.toNat - 48)) 0

/-- One JSON number token, per the strict number grammar
`-?(0|[1-9][0-9]*)(\.[0-9]+)?([eE][+-]?[0-9]+)?`; non-integer literals are
kept as their lexeme. -/
def parseJNum (s : Str) : Option (Json × Str) :=
  let (sign, s1) := match s with
    | '-' :: r => (([ '-' ] : Str), r)
    | _ => ([], s)
  match s1 with
  | c :: _ =>
      if !c.isDigit then none
      else
        let (intPart, s2) :=
          if c = '0' then ([ '0' ], s1.drop 1)
          else (s1.takeWhile Char.isDigit, s1.dropWhile Char.isDigit)
        let (fracPart, s3) :=
          match s2 with
          | '.' :: d :: r =>
              if d.isDigit then
                ('.' :: (d :: r).takeWhile Char.isDigit, (d :: r).dropWhile Char.isDigit)
              else ([], s2)
          | _ => ([], s2)
        let (expPart, s4) :=
          match s3 with
          | e :: r =>
              if e = 'e' || e = 'E' then
                let (sgn, r2) := match r with
                  | '+' :: r3 => (([ '+' ] : Str), r3)
                  | '-' :: r3 => (([ '-' ] : Str), r3)
                  | _ => ([], r)
                match r2 with
                | d :: _ =>
                    if d.isDigit then
                      (e :: sgn ++ r2.takeWhile Char.isDigit, r2.dropWhile Char.isDigit)
                    else ([], s3)
                | [] => ([], s3)
              else ([], s3)
          | [] => ([], s3)
        if fracPart.isEmpty && expPart.isEmpty then
          let n : Int := Int.ofNat (natOfDigits intPart)
          some (.num (if sign.isEmpty then n else -n), s2)
        else some (.numLex (sign ++ intPart ++ fracPart ++ expPart), s4)
  | [] => none

def hexVal (c : Char) : Option Nat :=
  if '0' ≤ c && c ≤ '9' then some (c.toNat - 48)
  else if 'a' ≤ c && c ≤ 'f' then some (c.toNat - 87)
  else if 'A' ≤ c && c ≤ 'F' then some (c.toNat - 55)
  else none

/-- Body of a JSON string literal after the opening quote.  Surrogate pairs
combine; a lone surrogate (which Python would keep as a surrogate code
point, unrepresentable as a scalar value) becomes U+FFFD. -/
def parseJStrBody : Nat → Str → Option (Str × Str)
  | 0, _ => none
  | Nat.succ fuel, s =>
    match s with
    | [] => none
    | c :: rest =>
        if c = '"' then some ([], rest)
        else if c = '\\' then
          match rest with
          | 'u' :: h1 :: h2 :: h3 :: h4 :: r2 =>
              match hexVal h1, hexVal h2, hexVal h3, hexVal h4 with
              | some a, some b, some cc, some d =>
                  let n := a * 4096 + b * 256 + cc * 16 + d
                  if 55296 ≤ n && n ≤ 56319 then
                    match r2 with
                    | '\\' :: 'u' :: g1 :: g2 :: g3 :: g4 :: r3 =>
                        match hexVal g1, hexVal g2, hexVal g3, hexVal g4 with
                        | some a2, some b2, some c2, some d2 =>
                            let m := a2 * 4096 + b2 * 256 + c2 * 16 + d2
                            if 56320 ≤ m && m ≤ 57343 then
                              let cp := 65536 + (n - 55296) * 1024 + (m - 56320)
                              (parseJStrBody fuel r3).map
                                (fun p => (Char.ofNat cp :: p.1, p.2))
                            else
                              (parseJStrBody fuel r2).map
                                (fun p => ((Char.ofNat 65533) :: p.1, p.2))
                        | _, _, _, _ => none
                    | _ =>
                        (parseJStrBody fuel r2).map (fun p => ((Char.ofNat 65533) :: p.1, p.2))
                  else if 56320 ≤ n && n ≤ 57343 then
                    (parseJStrBody fuel r2).map (fun p => ((Char.ofNat 65533) :: p.1, p.2))
                  else (parseJStrBody fuel r2).map (fun p => (Char.ofNat n :: p.1, p.2))
              | _, _, _, _ => none
          | e :: r2 =>
              let esc :=
                if e = '"' then some '"'
                else if e = '\\' then some '\\'
                else if e = '/' then some '/'
                else if e = 'b' then some '\x08'
                else if e = 'f' then some '\x0c'
                else if e = 'n' then some '\n'
                else if e = 'r' then some '\r'
                else if e = 't' then some '\t'
                else none
              match esc with
              | some ch => (parseJStrBody fuel r2).map (fun p => (ch :: p.1, p.2))
              | none => none
          | [] => none
        else if c.toNat < 32 then none
        else (parseJStrBody fuel rest).map (fun p => (c :: p.1, p.2))

/-- Insertion into a parsed object: a repeated key keeps its first position
and takes the later value, as for a Python dict. -/
def insertField (fs : List (Str × Json)) (k : Str) (v : Json) : List (Str × Json) :=
  match fs with
  | [] => [(k, v)]
  | (k1, v1) :: rest =>
      if k1 = k then (k1, v) :: rest else (k1, v1) :: insertField rest k v

mutual

/-- One JSON value, leading whitespace allowed; returns the rest of the
input.  Python also accepts the `NaN`/`Infinity`/`-Infinity` constants. -/
def parseJVal : Nat → Str → Option (Json × Str)
  | 0, _ => none
  | Nat.succ fuel, s =>
    let s1 := skipJsonWs s
    match s1 with
    | [] => none
    | c :: rest =>
        if c = '\x7b' then parseJObjFields fuel (skipJsonWs rest) []
        else if c = '[' then parseJArrElems fuel (skipJsonWs rest) []
        else if c = '"' then
          (parseJStrBody (rest.length + 1) rest).map (fun p => (.str p.1, p.2))
        else if (S "true").isPrefixOf s1 then some (.bool true, s1.drop 4)
        else if (S "false").isPrefixOf s1 then some (.bool false, s1.drop 5)
        else if (S "null").isPrefixOf s1 then some (.null, s1.drop 4)
        else if (S "NaN").isPrefixOf s1 then some (.numLex (S "NaN"), s1.drop 3)
        else if (S "Infinity").isPrefixOf s1 then some (.numLex (S "Infinity"), s1.drop 8)
        else if (S "-Infinity").isPrefixOf s1 then
          some (.numLex (S "-Infinity"), s1.drop 9)
        else parseJNum s1

/-- Elements of an array, positioned after `[` (whitespace skipped). -/
def parseJArrElems : Nat → Str → List Json → Option (Json × Str)
  | 0, _, _ => none
  | Nat.succ fuel, s, acc =>
    match s with
    | ']' :: rest => if acc.isEmpty then some (.arr [], rest) else none
    | _ =>
        match parseJVal fuel s with
        | some (v, rest) =>
            let rest1 := skipJsonWs rest
            match rest1 with
            | ',' :: rest2 => parseJArrElems fuel (skipJsonWs rest2) (acc ++ [v])
            | ']' :: rest2 => some (.arr (acc ++ [v]), rest2)
            | _ => none
        | none => none

/-- Fields of an object, positioned after `\x7b` (whitespace skipped). -/
def parseJObjFields : Nat → Str → List (Str × Json) → Option (Json × Str)
  | 0, _, _ => none
  | Nat.succ fuel, s, acc =>
    match s with
    | '\x7d' :: rest => if acc.isEmpty then some (.obj [], rest) else none
    | '"' :: rest =>
        match parseJStrBody (rest.length + 1) rest with
        | some (k, rest1) =>
            match skipJsonWs rest1 with
            | ':' :: rest2 =>
                match parseJVal fuel rest2 with
                | some (v, rest3) =>
                    let acc2 := insertField acc k v
                    match skipJsonWs rest3 with
                    | ',' :: rest4 => parseJObjFields fuel (skipJsonWs rest4) acc2
                    | '\x7d' :: rest4 => some (.obj acc2, rest4)
                    | _ => none
                | none => none
            | _ => none
        | none => none
    | _ => none

end

/-- Model of `json.loads(s)`: parse one value and require only whitespace after it;
the `none` result is a raised `JSONDecodeError`. -/
def pyJsonLoads (s : Str) : Option Json :=
  match parseJVal (s.length + 2) s with
  | some (v, rest) => if (skipJsonWs rest).isEmpty then some v else none
  | none => none

/-! ## Embedded Application-State Extraction: `_extract_json_content`
(lines 134-200) -/

mutual

/-- BeautifulSoup `find_all`: every matching element in document order,
descending into matches as well. -/
def findAllNode (p : Node → Bool) : Node → List Node
  | .text _ => []
  | .elem t a cs =>
      (if p (.elem t a cs) then [.elem t a cs] else []) ++ findAllList p cs

def findAllList (p : Node → Bool) : List Node → List Node
  | [] => []
  | c :: cs => findAllNode p c ++ findAllList p cs

end

/-- bs4 `Tag.string`: the single `NavigableString` child, through a chain of
single-child tags; `None` otherwise. -/
def nodeString : Node → Option Str
  | .text s => some s
  | .elem _ _ [c] => nodeString c
  | .elem _ _ _ => none

/-- Model of `tag.get(k)`. -/
def attrGet (n : Node) (k : Str) : Option Str :=
  match n with
  | .elem _ a _ => a.lookup k
  | .text _ => none

/-- Predicate of `soup.find("script", id="__NEXT_DATA__")`. -/
def scriptIsNextData (n : Node) : Bool :=
  tagIs (S "script") n && attrGet n (S "id") = some (S "__NEXT_DATA__")

/-- Model of `data.get("props", {}).get("pageProps", data)` (line 149); `none` is the
caught `AttributeError` when a non-dict is `.get`-ed. -/
def pagePropsOf (data : Json) : Option Json :=
  match data with
  | .obj fs =>
      match jGetD fs (S "props") (.obj []) with
      | .obj pfs => some (jGetD pfs (S "pageProps") data)
      | _ => none
  | _ => none

/-- Regex `\s` (ASCII part). -/
def regexWs (c : Char) : Bool :=
  c = ' ' || c = '\t' || c = '\n' || c = '\r' || c = '\x0b' || c = '\x0c'

def lastIndexOf (s : Str) (c : Char) : Option Nat :=
  match s.reverse.findIdx? (fun d => d = c) with
  | some k => some (s.length - 1 - k)
  | none => none

/-- Attempt of `__NUXT(?:_DATA)?__\s*=\s*\x7b` at position `i` of `full`:
the marker (longer alternative first), optional whitespace, `=`, optional
whitespace, an opening brace; returns the index of the brace. -/
def nuxtTryAt (full : Str) (i : Nat) : Option Nat :=
  let t := full.drop i
  let mlen :=
    if (S "__NUXT_DATA__").isPrefixOf t then some 13
    else if (S "__NUXT__").isPrefixOf t then some 8
    else none
  match mlen with
  | none => none
  | some L =>
      let r := t.drop L
      let w1 := (r.takeWhile regexWs).length
      match r.drop w1 with
      | '=' :: r2 =>
          let w2 := (r2.takeWhile regexWs).length
          match r2.drop w2 with
          | c :: _ => if c = '\x7b' then some (i + L + w1 + 1 + w2) else none
          | [] => none
      | _ => none

/-- Model of the regex search of line 161, `__NUXT(?:_DATA)?__\s*=\s*(\x7b.+\x7d)` with DOTALL:
(line 161): leftmost start position whose marker admits `\s*=\s*\x7b`; the
greedy group then runs from that brace to the last closing brace of the
string (at least one character between, `.+`). -/
def nuxtScan (full : Str) : Nat → Nat → Option Str
  | _, 0 => none
  | i, Nat.succ fuel =>
      if i ≥ full.length then none
      else
        match nuxtTryAt full i with
        | some p =>
            (match lastIndexOf full '\x7d' with
             | some j =>
                 if p + 2 ≤ j then some ((full.drop p).take (j - p + 1))
                 else nuxtScan full (i + 1) fuel
             | none => nuxtScan full (i + 1) fuel)
        | none => nuxtScan full (i + 1) fuel

def nuxtMatch (s : Str) : Option Str := nuxtScan s 0 (s.length + 1)

/-- Model of `_extract_json_content` before its truncation (lines 140-196): the four
embedded-state sources, each contributing only when its walk yields
non-whitespace text; joined and newline-collapsed.  `pg` is the external
BeautifulSoup text-extraction collaborator used by `_traverse_json`. -/
def _extract_json_content_pre (pg : Str → Str) (d : List Node) : Str :=
  let scripts := findAllList (tagIs (S "script")) d
  let t1 : List Str :=
    match findList scriptIsNextData d with
    | some nd =>
        (match nodeString nd with
         | some s =>
             if s.isEmpty then []
             else
               match pyJsonLoads s with
               | some data =>
                   (match pagePropsOf data with
                    | some pp =>
                        let ex := _traverse_json pg pp 0
                        if (pyStrip ex).isEmpty then [] else [ex]
                    | none => [])
               | none => []
         | none => [])
    | none => []
  let t2 : List Str := scripts.filterMap (fun sc =>
    match nodeString sc with
    | some s =>
        if s.isEmpty then none
        else if containsSub s (S "__NUXT__") || containsSub s (S "__NUXT_DATA__") then
          match nuxtMatch s with
          | some g =>
              (match pyJsonLoads g with
               | some data =>
                   let ex := _traverse_json pg data 0
                   if (pyStrip ex).isEmpty then none else some ex
               | none => none)
          | none => none
        else none
    | none => none)
  let t3 : List Str :=
    (findAllList (fun n =>
        tagIs (S "script") n && attrGet n (S "type") = some (S "application/json")) d).filterMap
      (fun sc =>
        match nodeString sc with
        | some s =>
            if s.isEmpty then none
            else if attrGet sc (S "id") = some (S "__NEXT_DATA__") then none
            else
              match pyJsonLoads s with
              | some data =>
                  let ex := _traverse_json pg data 0
                  if (pyStrip ex).isEmpty then none else some ex
              | none => none
        | none => none)
  let t4 : List Str :=
    (findAllList (fun n =>
        tagIs (S "script") n && attrGet n (S "type") = some (S "application/ld+json")) d).filterMap
      (fun sc =>
        match nodeString sc with
        | some s =>
            if s.isEmpty then none
            else
              match pyJsonLoads s with
              | some data =>
                  let ex := _traverse_json pg data 0
                  if (pyStrip ex).isEmpty then none else some ex
              | none => none
        | none => none)
  let texts := t1 ++ t2 ++ t3 ++ t4
  collapseNL (joinSep (S "\n\n") (texts.filter (fun t => !(pyStrip t).isEmpty)))

/-- Model of `_extract_json_content(html)` (lines 134-200). -/
def _extract_json_content (pg : Str → Str) (d : List Node) : Str :=
  truncate12000 (_extract_json_content_pre pg d)

/-! ## Extraction Orchestrator: `fetch_page` (lines 476-512) -/

structure PageResult where
  content : Str
  used_js : Bool
deriving DecidableEq

/-- Which of the three fallback strategies were invoked during a run. -/
structure CallLog where
  openapi_called : Bool
  json_called : Bool
  render_called : Bool
deriving DecidableEq

/-- The external rendering collaborator (ScrapingBee): its HTTP status and
the parse tree of the HTML it returns. -/
structure RenderOracle where
  status : Nat
  doc : List Node

/-- Model of `_scrapingbee_fetch` (lines 465-473): a non-200 status raises; otherwise
Plain Text Extraction re-runs on the rendered document. -/
def _scrapingbee_fetch (r : RenderOracle) : Py Str :=
  if r.status ≠ 200 then pyThrow else Except.ok (_extract_text r.doc)

/-- The `content` after step 2 of `fetch_page`. -/
def content1 (d : List Node) : Str := _extract_text d

/-- The `content` after step 3 (lines 494-497): `openapi_content` is the text
produced by `_extract_openapi_content(raw_html, url)`, which fetches the
referenced spec over the network (an external collaborator); it is adopted
only when longer than the current content. -/
def content2 (d : List Node) (openapi_content : Str) : Str :=
  let c := content1 d
  if (pyStrip c).length < 200 ∧
      (pyStrip openapi_content).length > (pyStrip c).length then openapi_content
  else c

/-- The `content` after step 4 (lines 500-503). -/
def content3 (pg : Str → Str) (d : List Node) (openapi_content : Str) : Str :=
  let c := content2 d openapi_content
  if (pyStrip c).length < 200 then
    let j := _extract_json_content pg d
    if (pyStrip j).length > (pyStrip c).length then j else c
  else c

/-- Truthiness of an `os.environ.get` result: line 482 tests `if sb_key:`
on an optional string, which is false both when the variable is unset
(`None`) and when it is set to the empty string. -/
def envTruthy : Option Str → Bool
  | some k => !k.isEmpty
  | none => false

/-- Model of `fetch_page(url)` (lines 476-512), instrumented with a `CallLog`
recording which fallback strategies ran.  `d` is the parse of the raw HTML
of step 1; `openapi_content` stands for the OpenAPI stage's result (its
network fetch is external); `sb_key` is `os.environ.get("SCRAPINGBEE_API_KEY")`,
gated by the `if sb_key:` string-truthiness test; `render` is the ScrapingBee
collaborator. -/
def fetch_page (pg : Str → Str) (d : List Node) (openapi_content : Str)
    (sb_key : Option Str) (render : RenderOracle) : Py PageResult × CallLog :=
  let c1 := content1 d
  let oCalled := decide ((pyStrip c1).length < 200)
  let c2 := content2 d openapi_content
  let jCalled := decide ((pyStrip c2).length < 200)
  let c3 := content3 pg d openapi_content
  if (pyStrip c3).length < 200 then
    if envTruthy sb_key then
      ((_scrapingbee_fetch render).map (fun c => ⟨c, true⟩),
        ⟨oCalled, jCalled, true⟩)
    else (Except.ok ⟨c3, false⟩, ⟨oCalled, jCalled, false⟩)
  else (Except.ok ⟨c3, false⟩, ⟨oCalled, jCalled, false⟩)

/-! ## Response Parser: `_parse_ai_json` (lines 515-538) -/

def firstSubIdx (s pat : Str) : Option Nat :=
  (List.range (s.length + 1)).find? (fun i => pat.isPrefixOf (s.drop i))

/-- Model of the fence regex search of line 520 with DOTALL,
followed by `.group(1).strip()` (lines 520-522).  The pattern anchors at the
first triple-backtick; an immediately following `json` tag is consumed; the
lazy group then ends at the next triple-backtick, and the whitespace the
surrounding `\s*`/`\n?` atoms may absorb is erased by the final `.strip()`,
so the stripped group is the stripped text between the fences. -/
def fenceExtract (s : Str) : Option Str :=
  match firstSubIdx s (S "```") with
  | none => none
  | some i =>
      let u0 := s.drop (i + 3)
      let u := if (S "json").isPrefixOf u0 then u0.drop 4 else u0
      match firstSubIdx u (S "```") with
      | some p => some (pyStrip (u.take p))
      | none => none

/-- Model of the brace-span regex search of line 531 with DOTALL: greedily from the
first opening brace to the last closing brace. -/
def braceSpan (s : Str) : Option Str :=
  match s.findIdx? (fun c => c = '\x7b'), lastIndexOf s '\x7d' with
  | some i, some j => if i < j then some ((s.drop i).take (j - i + 1)) else none
  | _, _ => none

/-- Model of `_parse_ai_json(raw)` (lines 515-538); `none` is the raised
`json.JSONDecodeError`. -/
def _parse_ai_json (raw : Str) : Option Json :=
  let t0 := pyStrip raw
  let text :=
    match fenceExtract t0 with
    | some g => g
    | none => t0
  match pyJsonLoads text with
  | some v => some v
  | none =>
      match braceSpan text with
      | some b => pyJsonLoads b
      | none => none

/-! ## The handlers' response choice (scrape.py lines 606-629, dev_server.py
lines 83-103) -/

/-- The api handler's behaviour from the point where the summarization
collaborator's raw reply is in hand (lines 606-629): parse failure falls
back to the raw text as a supported guide; a reply parsing to a non-dict
raises (`.get` on it) into the catch-all, which answers 500. -/
def respond_with_ai (url : Str) (used_js : Bool) (raw : Str) : Py (Nat × Json) :=
  match _parse_ai_json raw with
  | none =>
      Except.ok (200, .obj [ (S "guide", .str raw), (S "source_url", .str url),
        (S "supported", .bool true), (S "used_js", .bool used_js) ])
  | some ai =>
      match ai with
      | .obj fs =>
          if pyTruthy (jGetD fs (S "supported") .null) then
            Except.ok (200, .obj [ (S "guide", jGetD fs (S "guide") (.str [])),
              (S "source_url", .str url), (S "supported", .bool true),
              (S "platform", jGetD fs (S "platform") (.str [])),
              (S "used_js", .bool used_js) ])
          else
            Except.ok (200, .obj [ (S "supported", .bool false),
              (S "source_url", .str url),
              (S "platform", jGetD fs (S "platform") (.str [])),
              (S "missing", jGetD fs (S "missing")
                (.str (S "Required features are not supported by this platform."))),
              (S "used_js", .bool used_js) ])
      | _ => pyThrow

/-- The dev server's counterpart (dev_server.py lines 83-103): a bare
`json.loads` with the same raw-text fallback. -/
def dev_respond (url : Str) (raw : Str) : Py (Nat × Json) :=
  match pyJsonLoads raw with
  | none =>
      Except.ok (200, .obj [ (S "guide", .str raw), (S "source_url", .str url),
        (S "supported", .bool true) ])
  | some r =>
      match r with
      | .obj fs =>
          if pyTruthy (jGetD fs (S "supported") .null) then
            Except.ok (200, .obj [ (S "guide", jGetD fs (S "guide") (.str [])),
              (S "source_url", .str url), (S "supported", .bool true),
              (S "platform", jGetD fs (S "platform") (.str [])) ])
          else
            Except.ok (200, .obj [ (S "supported", .bool false),
              (S "source_url", .str url),
              (S "platform", jGetD fs (S "platform") (.str [])),
              (S "missing", jGetD fs (S "missing")
                (.str (S "Required features are not supported by this platform."))) ])
      | _ => pyThrow

/-! ## Support definitions for the statements -/

/-- A value wrapped in `n` singleton arrays (nesting depth `n`). -/
def nestArr : Nat → Json → Json
  | 0, v => v
  | Nat.succ n, v => .arr [nestArr n v]

/-- A value wrapped in `n` singleton objects under the neutral key `"data"`
(neither a priority nor a skipped key). -/
def nestObj : Nat → Json → Json
  | 0, v => v
  | Nat.succ n, v => .obj [(S "data", nestObj n v)]

def twoDigits (i : Nat) : Str := (if i < 10 then [ '0' ] else []) ++ natStr i

/-- A spec with 31 endpoints whose paths all contain "billing" (used to
exercise the 30-endpoint cap). -/
def capSpec : Json :=
  .obj [ (S "paths", .obj ((List.range 31).map (fun i =>
    (S "/billing" ++ twoDigits i, Json.obj [(S "get", Json.obj [])])))) ]

/-- The text of a successful summarizer run (an error is unreachable in the
concrete runs this is applied to). -/
def okText (r : Py Str) : Str :=
  match r with
  | .ok s => s
  | .error _ => S "ERROR"

/-! # Theorems -/

/-! ## Newline collapse (claim C10) -/

theorem dropWhile_length_le (p : Char → Bool) (l : Str) :
    (l.dropWhile p).length ≤ l.length := by
  induction l with
  | nil => simp [List.dropWhile]
  | cons c cs ih =>
    by_cases h : p c = true
    · simp [List.dropWhile, h]
      omega
    · simp [List.dropWhile, h]

theorem pyStrip_length_le (s : Str) : (pyStrip s).length ≤ s.length := by
  unfold pyStrip
  have h1 := dropWhile_length_le isPySpace s
  have h2 := dropWhile_length_le isPySpace (s.dropWhile isPySpace).reverse
  simp at h2 ⊢
  omega

theorem hasTriple_short (s : Str) (h : s.length ≤ 2) : hasTriple s = false := by
  match s with
  | [] => rfl
  | [c] => rfl
  | [c, d] => rfl
  | c :: d :: e :: r => simp at h

theorem hasTriple_tail (a : Char) (X : Str) (h : hasTriple (a :: X) = false) :
    hasTriple X = false := by
  match X with
  | [] => rfl
  | [x] => rfl
  | x1 :: x2 :: xs =>
    rw [hasTriple] at h
    simp at h
    simp [h.2]

theorem hasTriple_cons_notNl (c : Char) (X : Str) (hc : ¬(c = '\n')) :
    hasTriple (c :: X) = hasTriple X := by
  match X with
  | [] => simp [hasTriple]
  | [x] => simp [hasTriple]
  | x1 :: x2 :: xs =>
    rw [hasTriple]
    simp [hc]

theorem hasTriple_cons2_notNl (a c : Char) (X : Str) (hc : ¬(c = '\n')) :
    hasTriple (a :: c :: X) = hasTriple (c :: X) := by
  match X with
  | [] => simp [hasTriple]
  | x :: xs =>
    rw [hasTriple]
    simp [hc]

theorem hasTriple_run (k : Nat) (c : Char) (X : Str) (hk : k ≤ 2) (hc : ¬(c = '\n')) :
    hasTriple (List.replicate k '\n' ++ c :: X) = hasTriple X := by
  match k, hk with
  | 0, _ => simpa using hasTriple_cons_notNl c X hc
  | 1, _ =>
    simp only [List.replicate, List.cons_append, List.nil_append]
    rw [hasTriple_cons2_notNl _ _ _ hc, hasTriple_cons_notNl _ _ hc]
  | 2, _ =>
    simp only [List.replicate, List.cons_append, List.nil_append]
    rw [hasTriple]
    simp [hc]
    rw [hasTriple_cons2_notNl _ _ _ hc, hasTriple_cons_notNl _ _ hc]

theorem collapseGo_noTriple (s : Str) : ∀ n, hasTriple (collapseGo n s) = false := by
  induction s with
  | nil =>
    intro n
    rw [collapseGo]
    apply hasTriple_short
    simp [nlRun]
    split <;> omega
  | cons c rest ih =>
    intro n
    by_cases hc : c = '\n'
    · subst hc
      rw [collapseGo]
      exact ih (n + 1)
    · have he : collapseGo n (c :: rest) = nlRun n ++ c :: collapseGo 0 rest := by
        rw [collapseGo.eq_3]
        exact fun hcc => hc hcc
      rw [he, nlRun]
      rw [hasTriple_run _ _ _ (by split <;> omega) hc]
      exact ih 0

theorem collapseGo_id (s : Str) : ∀ n, n ≤ 2 →
    hasTriple (List.replicate n '\n' ++ s) = false →
    collapseGo n s = List.replicate n '\n' ++ s := by
  induction s with
  | nil =>
    intro n hn _
    rw [collapseGo, nlRun]
    simp
    omega
  | cons c rest ih =>
    intro n hn h
    by_cases hc : c = '\n'
    · subst hc
      rw [collapseGo]
      have hrep : List.replicate n '\n' ++ '\n' :: rest = List.replicate (n + 1) '\n' ++ rest := by
        rw [List.replicate_succ']
        simp
      have hn1 : n + 1 ≤ 2 := by
        rcases Nat.lt_or_ge n 2 with h2 | h2
        · omega
        · exfalso
          have hn2 : n = 2 := by omega
          subst hn2
          rw [hrep] at h
          rw [show List.replicate 3 '\n' ++ rest = '\n' :: '\n' :: '\n' :: rest from rfl] at h
          rw [hasTriple] at h
          simp at h
      rw [hrep] at h ⊢
      exact ih (n + 1) hn1 h
    · have he : collapseGo n (c :: rest) = nlRun n ++ c :: collapseGo 0 rest := by
        rw [collapseGo.eq_3]
        exact fun hcc => hc hcc
      rw [he]
      have h0 : hasTriple rest = false := by
        rw [hasTriple_run n c rest hn hc] at h
        exact h
      rw [ih 0 (by omega) (by simpa using h0)]
      rw [nlRun]
      simp
      intro hge
      omega

/-- C10: the newline-collapse step (replacing every run of 3 or more
consecutive newlines with exactly 2) is idempotent: applying `collapseNL`
to already-collapsed text yields the same text. -/
theorem C10_collapse_idempotent (s : Str) : collapseNL (collapseNL s) = collapseNL s := by
  have h1 : hasTriple (collapseNL s) = false := collapseGo_noTriple s 0
  have h2 := collapseGo_id (collapseNL s) 0 (by omega) (by simpa using h1)
  simpa [collapseNL] using h2

/-! ## Removal before flattening (claim C3) -/

mutual

theorem cleanNode_pruneNode : ∀ n : Node, isRemovedElem n = false →
    cleanNode (pruneNode n) = true
  | .text _, _ => rfl
  | .elem t a cs, h => by
      rw [pruneNode, cleanNode]
      rw [isRemovedElem] at h
      have h2 : t ∉ removedTags := by simpa using h
      simp [h2]
      exact cleanList_pruneList cs

theorem cleanList_pruneList : ∀ d : List Node, cleanList (pruneList d) = true
  | [] => rfl
  | c :: cs => by
      rw [pruneList]
      by_cases hr : isRemovedElem c = true
      · simp [hr]
        exact cleanList_pruneList cs
      · simp [hr]
        rw [cleanList]
        simp [cleanNode_pruneNode c (by simpa using hr), cleanList_pruneList cs]

end

mutual

theorem stringsNode_pruneNode : ∀ n : Node, isRemovedElem n = false →
    stringsNode (pruneNode n) = stringsOutsideNode n
  | .text _, _ => rfl
  | .elem t a cs, h => by
      rw [pruneNode, stringsNode, stringsOutsideNode]
      rw [isRemovedElem] at h
      have h2 : t ∉ removedTags := by simpa using h
      simp [h2]
      exact stringsList_pruneList cs

theorem stringsList_pruneList : ∀ d : List Node,
    stringsList (pruneList d) = stringsOutsideList d
  | [] => rfl
  | c :: cs => by
      rw [pruneList, stringsOutsideList]
      by_cases hr : isRemovedElem c = true
      · have hc : stringsOutsideNode c = [] := by
          cases c with
          | text s => rw [isRemovedElem] at hr; simp at hr
          | elem t a cs2 =>
            rw [stringsOutsideNode]
            rw [isRemovedElem] at hr
            have h2 : t ∈ removedTags := by simpa using hr
            simp [h2]
        rw [if_pos hr]
        simp [hc]
        exact stringsList_pruneList cs
      · rw [if_neg hr]
        simp
        rw [stringsList]
        rw [stringsNode_pruneNode c (by simpa using hr), stringsList_pruneList cs]

end

/-- C3 (amended): `_extract_text` computes its result solely from the
document with the removed subtrees pruned away: it equals the no-removal
extraction applied to the pruned document, the pruned document contains no
script/style/nav/footer/header/iframe/noscript element anywhere, and the
text-node strings the flattening can see are exactly the text nodes lying
outside every removed subtree.  (The literal no-shared-substring reading
fails when the surviving document repeats the removed text, see the
counterexample.) -/
theorem C3_removal_precedes_flattening : ∀ d : List Node,
    _extract_text d = extractCore (pruneList d) ∧
    cleanList (pruneList d) = true ∧
    stringsList (pruneList d) = stringsOutsideList d := by
  intro d
  refine ⟨rfl, cleanList_pruneList d, stringsList_pruneList d⟩

/-- C3 counterexample: when the page body repeats the text of a removed
`script` subtree, the extraction output does contain a (full, non-empty)
substring of the removed subtree's text, so the claim as stated is false. -/
theorem C3_counterexample :
    isRemovedElem (Node.elem (S "script") [] [Node.text (S "platform setup instructions")]) = true ∧
    getTextNode (Node.elem (S "script") [] [Node.text (S "platform setup instructions")]) =
      S "platform setup instructions" ∧
    S "platform setup instructions" ≠ [] ∧
    (S "platform setup instructions") <:+:
      _extract_text [Node.elem (S "div") []
        [Node.elem (S "script") [] [Node.text (S "platform setup instructions")],
         Node.elem (S "p") [] [Node.text (S "platform setup instructions")]]] := by
  refine ⟨by decide, by decide, by decide, ?_⟩
  decide

/-! ## Length bound and no spurious truncation (claim C4) -/

theorem truncate_length_le (s : Str) :
    (truncate12000 s).length ≤ 12000 + truncMarker.length := by
  unfold truncate12000
  by_cases h : s.length > 12000
  · rw [if_pos h]
    simp
  · rw [if_neg h]
    omega

theorem truncate_id_of_le (s : Str) (h : s.length ≤ 12000) : truncate12000 s = s := by
  unfold truncate12000
  rw [if_neg (by omega)]

/-- C4: each extractor's output is at most 12000 characters plus the
truncation marker, and whenever the pre-truncation text is at most 12000
characters it is returned unmodified with no marker appended.  For the spec
summarizer (which can raise on malformed JSON) the bound holds for every
run that returns. -/
theorem C4_truncation_bound :
    (∀ d : List Node,
      (_extract_text d).length ≤ 12000 + truncMarker.length ∧
      ((_extract_text_pre d).length ≤ 12000 → _extract_text d = _extract_text_pre d)) ∧
    (∀ (pg : Str → Str) (d : List Node),
      (_extract_json_content pg d).length ≤ 12000 + truncMarker.length ∧
      ((_extract_json_content_pre pg d).length ≤ 12000 →
        _extract_json_content pg d = _extract_json_content_pre pg d)) ∧
    (∀ (spec : Json) (out : Str), _summarize_openapi spec = Except.ok out →
      out.length ≤ 12000 + truncMarker.length) ∧
    (∀ (spec : Json) (p : Str), summarize_pre spec = Except.ok p → p.length ≤ 12000 →
      _summarize_openapi spec = Except.ok p) := by
  refine ⟨?_, ?_, ?_, ?_⟩
  · intro d
    exact ⟨truncate_length_le _, fun h => truncate_id_of_le _ h⟩
  · intro pg d
    exact ⟨truncate_length_le _, fun h => truncate_id_of_le _ h⟩
  · intro spec out h
    unfold _summarize_openapi at h
    cases hp : summarize_pre spec with
    | ok p =>
        rw [hp] at h
        simp [Except.map] at h
        rw [← h]
        exact truncate_length_le p
    | error e =>
        rw [hp] at h
        simp [Except.map] at h
  · intro spec p hp hle
    unfold _summarize_openapi
    rw [hp]
    simp [Except.map]
    exact truncate_id_of_le p hle

/-- C4 witness: concrete runs of all three extractors, under the bound and
unmodified. -/
theorem C4_witness :
    _extract_text [Node.elem (S "p") [] [Node.text (S "hello")]] =
      _extract_text_pre [Node.elem (S "p") [] [Node.text (S "hello")]] ∧
    _extract_json_content (fun _ => []) [] = _extract_json_content_pre (fun _ => []) [] ∧
    (S "\n## All API Endpoints (0 total)").length ≤ 12000 + truncMarker.length ∧
    _summarize_openapi (.obj []) = Except.ok (S "\n## All API Endpoints (0 total)") := by
  refine ⟨(C4_truncation_bound.1 _).2 (by decide),
    (C4_truncation_bound.2.1 _ _).2 (by decide),
    C4_truncation_bound.2.2.1 (.obj []) _ ?ok,
    C4_truncation_bound.2.2.2 (.obj []) _ (by rfl) (by decide)⟩
  case ok => exact C4_truncation_bound.2.2.2 (.obj []) _ (by rfl) (by decide)

/-! ## Schema Describer depth ceiling (claim C7) -/

theorem py_bind_ok {α β : Type} (a : α) (f : α → Py β) :
    (Except.ok a >>= f : Py β) = f a := rfl

theorem py_bind_err {α β : Type} (f : α → Py β) :
    ((Except.error () : Py α) >>= f) = Except.error () := rfl

/-- C7: the Schema Describer is total (it is defined by structural recursion
whose only self-call is on array items, with the depth guard making the
fuel-0 branch unreachable); calls past depth 3 return the empty description
without recursing; a `$ref` met at depth 2 or 3 (where the depth guard has
not yet cut the walk off, i.e. exactly where a reference cycle would
continue) yields the name-only description of the referenced schema; and on
a concrete self-referential schema the walk terminates with the name. -/
theorem C7_describe_schema_depth :
    (∀ (schema allS : Json) (d : Nat), 3 < d →
      _describe_schema schema allS d = Except.ok (.str [])) ∧
    (∀ (fs : List (Str × Json)) (allS : Json) (d : Nat) (r : Str),
      2 ≤ d → d ≤ 3 → jLookup fs (S "$ref") = some (.str r) →
      _describe_schema (.obj fs) allS d = Except.ok (.str (lastSlashComponent r))) ∧
    _describe_schema (.obj [(S "$ref", .str (S "#/components/schemas/Self"))])
      (.obj [(S "Self", .obj [(S "$ref", .str (S "#/components/schemas/Self"))])]) 0 =
      Except.ok (.str (S "Self")) := by
  refine ⟨?_, ?_, by rfl⟩
  · intro schema allS d hd
    unfold _describe_schema
    simp only [describeFuel]
    rw [if_pos hd]
  · intro fs allS d r h2 h3 href
    unfold _describe_schema
    simp only [describeFuel]
    rw [if_neg (by omega)]
    have hc : pyContains (Json.obj fs) (S "$ref") = Except.ok true := by
      simp [pyContains, href]
    have hi : pyIndex (Json.obj fs) (S "$ref") = Except.ok (Json.str r) := by
      simp [pyIndex, href]
    simp only [hc, hi, py_bind_ok]
    simp only [if_true]
    rw [if_neg (by omega)]

/-- C7 witness: a call past the depth ceiling, and a self-referential
`$ref` met at depth 2, both through the theorem at concrete inputs. -/
theorem C7_witness :
    _describe_schema (.obj []) (.obj []) 4 = Except.ok (.str []) ∧
    _describe_schema (.obj [(S "$ref", .str (S "#/components/schemas/Self"))])
      (.obj [(S "Self", .obj [(S "$ref", .str (S "#/components/schemas/Self"))])]) 2 =
      Except.ok (.str (S "Self")) := by
  constructor
  · exact C7_describe_schema_depth.1 (.obj []) (.obj []) 4 (by omega)
  · have h := C7_describe_schema_depth.2.1
      [(S "$ref", Json.str (S "#/components/schemas/Self"))]
      (.obj [(S "Self", .obj [(S "$ref", .str (S "#/components/schemas/Self"))])])
      2 (S "#/components/schemas/Self") (by omega) (by omega) (by rfl)
    simpa using h

/-! ## Structured-Data Extractor filters and depth (claim C6) -/

theorem traverseFuel_depth_exceeded (pg : Str → Str) (f : Nat) (v : Json) (d : Nat)
    (hd : 15 < d) : traverseFuel pg f v d = [] := by
  cases f with
  | zero => rfl
  | succ f' => cases v <;> simp [traverseFuel, hd]

theorem traverseFuel_congr (pg : Str → Str) :
    ∀ (f g : Nat) (v : Json) (d : Nat), 16 ≤ f + d → 16 ≤ g + d →
      traverseFuel pg f v d = traverseFuel pg g v d := by
  intro f
  induction f with
  | zero =>
    intro g v d hf hg
    have hz : traverseFuel pg 0 v d = [] := rfl
    rw [hz, traverseFuel_depth_exceeded pg g v d (by omega)]
  | succ f' ih =>
    intro g v d hf hg
    cases g with
    | zero =>
        have hz : traverseFuel pg 0 v d = [] := rfl
        rw [hz, traverseFuel_depth_exceeded pg (f' + 1) v d (by omega)]
    | succ g' =>
        by_cases hd : d > 15
        · rw [traverseFuel_depth_exceeded pg _ v d hd, traverseFuel_depth_exceeded pg _ v d hd]
        · cases v with
          | str s => rw [traverseFuel, traverseFuel]
          | arr xs =>
              rw [traverseFuel, traverseFuel, if_neg hd, if_neg hd]
              have hm : xs.map (fun item => traverseFuel pg f' item (d + 1)) =
                  xs.map (fun item => traverseFuel pg g' item (d + 1)) := by
                apply List.map_congr_left
                intro a _
                exact ih g' a (d + 1) (by omega) (by omega)
              rw [hm]
          | obj fs =>
              rw [traverseFuel, traverseFuel, if_neg hd, if_neg hd]
              have h1 : priorityKeys.filterMap (fun k =>
                    match jLookup fs k with
                    | some val =>
                        let r := traverseFuel pg f' val (d + 1)
                        if r.isEmpty then none else some r
                    | none => none) =
                  priorityKeys.filterMap (fun k =>
                    match jLookup fs k with
                    | some val =>
                        let r := traverseFuel pg g' val (d + 1)
                        if r.isEmpty then none else some r
                    | none => none) := by
                apply List.filterMap_congr
                intro k _
                cases jLookup fs k with
                | some val => simp only []; rw [ih g' val (d + 1) (by omega) (by omega)]
                | none => rfl
              have h2 : fs.filterMap (fun kv =>
                    if priorityKeys.contains kv.1 || skipKeys.contains kv.1 then none
                    else
                      let r := traverseFuel pg f' kv.2 (d + 1)
                      if r.isEmpty then none else some r) =
                  fs.filterMap (fun kv =>
                    if priorityKeys.contains kv.1 || skipKeys.contains kv.1 then none
                    else
                      let r := traverseFuel pg g' kv.2 (d + 1)
                      if r.isEmpty then none else some r) := by
                apply List.filterMap_congr
                intro kv _
                by_cases hp : priorityKeys.contains kv.1 || skipKeys.contains kv.1
                · rw [if_pos hp, if_pos hp]
                · rw [if_neg hp, if_neg hp]
                  simp only []
                  rw [ih g' kv.2 (d + 1) (by omega) (by omega)]
              simp only []
              rw [h1, h2]
          | null => rfl
          | bool b => rfl
          | num n => rfl
          | numLex s => rfl

theorem joinSep_filter_single (sep x : Str) :
    joinSep sep (List.filter (fun p => !p.isEmpty) [x]) = x := by
  by_cases hx : x.isEmpty
  · have hxe : x = [] := by simpa [List.isEmpty_iff] using hx
    subst hxe
    rfl
  · simp [List.filter, hx, joinSep]

theorem traverse_nestArr (pg : Str → Str) :
    ∀ (n : Nat) (d : Nat) (v : Json),
      _traverse_json pg (nestArr n v) d = _traverse_json pg v (d + n) := by
  intro n
  induction n with
  | zero => intro d v; simp [nestArr]
  | succ n ih =>
    intro d v
    by_cases hd : d > 15
    · unfold _traverse_json
      rw [traverseFuel_depth_exceeded pg 17 _ d hd,
        traverseFuel_depth_exceeded pg 17 v (d + (n + 1)) (by omega)]
    · simp only [nestArr]
      unfold _traverse_json
      rw [traverseFuel]
      rw [if_neg hd]
      simp only [List.map]
      rw [traverseFuel_congr pg 16 17 (nestArr n v) (d + 1) (by omega) (by omega)]
      have hih := ih (d + 1) v
      unfold _traverse_json at hih
      rw [hih]
      have harith : d + 1 + n = d + (n + 1) := by omega
      rw [harith]
      exact joinSep_filter_single _ _

theorem traverse_nestObj (pg : Str → Str) :
    ∀ (n : Nat) (d : Nat) (v : Json),
      _traverse_json pg (nestObj n v) d = _traverse_json pg v (d + n) := by
  intro n
  induction n with
  | zero => intro d v; simp [nestObj]
  | succ n ih =>
    intro d v
    by_cases hd : d > 15
    · unfold _traverse_json
      rw [traverseFuel_depth_exceeded pg 17 _ d hd,
        traverseFuel_depth_exceeded pg 17 v (d + (n + 1)) (by omega)]
    · simp only [nestObj]
      unfold _traverse_json
      rw [traverseFuel]
      rw [if_neg hd]
      have h1 : priorityKeys.filterMap (fun k =>
          match jLookup [(S "data", nestObj n v)] k with
          | some val =>
              let r := traverseFuel pg 16 val (d + 1)
              if r.isEmpty then none else some r
          | none => none) = [] := rfl
      rw [h1]
      have h2 : List.filterMap (fun kv =>
          if (priorityKeys.contains kv.1 || skipKeys.contains kv.1) = true then none
          else
            let r := traverseFuel pg 16 kv.2 (d + 1)
            if r.isEmpty then none else some r) [(S "data", nestObj n v)] =
          (if (traverseFuel pg 16 (nestObj n v) (d + 1)).isEmpty then []
           else [traverseFuel pg 16 (nestObj n v) (d + 1)]) := by
        simp only [List.filterMap_cons, List.filterMap_nil]
        have hpk : (priorityKeys.contains (S "data") || skipKeys.contains (S "data")) = false := rfl
        simp only [hpk, Bool.false_eq_true, if_false]
        by_cases hx : (traverseFuel pg 16 (nestObj n v) (d + 1)).isEmpty <;> simp [hx]
      simp only []
      rw [h2]
      rw [traverseFuel_congr pg 16 17 (nestObj n v) (d + 1) (by omega) (by omega)]
      have hih := ih (d + 1) v
      unfold _traverse_json at hih
      rw [hih]
      have harith : d + 1 + n = d + (n + 1) := by omega
      rw [harith]
      by_cases hx : (traverseFuel pg 17 v (d + (n + 1))).isEmpty
      · have hxe : traverseFuel pg 17 v (d + (n + 1)) = [] := by
          simpa [List.isEmpty_iff] using hx
        simp [hx, hxe, joinSep]
      · simp [hx, joinSep]

/-- C6: the Structured-Data Extractor discards a string whose stripped form
is shorter than 30 characters (in particular any string shorter than 30
characters), discards a string matching the UUID/hash pattern, keeps a
narrative string (one that trips none of the noise filters and carries no
markup) verbatim up to stripping — a 40-character narrative string in
particular — and recurses into nested arrays and objects only up to depth
15: a value nested `n` levels deep is walked at depth `n`, any walk entered
past depth 15 returns empty text, and so a value nested beyond depth 15
contributes nothing. -/
theorem C6_structured_data_extractor :
    (∀ (pg : Str → Str) (s : Str) (d : Nat), s.length < 30 →
      _traverse_json pg (.str s) d = []) ∧
    (∀ (pg : Str → Str) (s : Str) (d : Nat), uuidHashMatch (pyStrip s) = true →
      _traverse_json pg (.str s) d = []) ∧
    (∀ (pg : Str → Str) (s : Str) (d : Nat), d ≤ 15 →
      30 ≤ (pyStrip s).length →
      startsWithAny (pyStrip s) noisePrefixes = false →
      uuidHashMatch (pyStrip s) = false →
      filePathMatch (pyStrip s) = false →
      (containsChar (pyStrip s) '<' && containsChar (pyStrip s) '>') = false →
      _traverse_json pg (.str s) d = pyStrip s) ∧
    (∀ (pg : Str → Str) (v : Json) (d : Nat), 15 < d → _traverse_json pg v d = []) ∧
    (∀ (pg : Str → Str) (v : Json) (n d : Nat),
      _traverse_json pg (nestArr n v) d = _traverse_json pg v (d + n)) ∧
    (∀ (pg : Str → Str) (v : Json) (n d : Nat),
      _traverse_json pg (nestObj n v) d = _traverse_json pg v (d + n)) ∧
    (∀ (pg : Str → Str) (v : Json), _traverse_json pg (nestArr 16 v) 0 = []) ∧
    (∀ (pg : Str → Str) (v : Json), _traverse_json pg (nestObj 16 v) 0 = []) := by
  have hdepth : ∀ (pg : Str → Str) (v : Json) (d : Nat), 15 < d →
      _traverse_json pg v d = [] := by
    intro pg v d hd
    exact traverseFuel_depth_exceeded pg 17 v d hd
  have hstr : ∀ (pg : Str → Str) (s : Str) (d : Nat),
      _traverse_json pg (.str s) d = if 15 < d then [] else traverseStr pg s := by
    intro pg s d
    by_cases hd : 15 < d
    · rw [if_pos hd]
      exact hdepth pg _ d hd
    · rw [if_neg hd]
      unfold _traverse_json
      rw [traverseFuel]
      rw [if_neg hd]
  refine ⟨?_, ?_, ?_, hdepth, ?_, ?_, ?_, ?_⟩
  · intro pg s d hlen
    rw [hstr]
    have h30 : (pyStrip s).length < 30 := by
      have := pyStrip_length_le s
      omega
    unfold traverseStr
    simp [h30]
  · intro pg s d huuid
    rw [hstr]
    unfold traverseStr
    simp [huuid]
  · intro pg s d hd hlen hpre huuid hfile hmk
    rw [hstr, if_neg (by omega)]
    unfold traverseStr
    simp only [hpre, huuid, hfile, hmk]
    simp
    intro hcon
    omega
  · intro pg v n d
    exact traverse_nestArr pg n d v
  · intro pg v n d
    exact traverse_nestObj pg n d v
  · intro pg v
    rw [traverse_nestArr pg 16 0 v]
    exact hdepth pg v 16 (by omega)
  · intro pg v
    rw [traverse_nestObj pg 16 0 v]
    exact hdepth pg v 16 (by omega)

/-- C6 witness: a 10-character string is discarded, a 36-character UUID is
discarded, a 40-character narrative string is kept (also at nesting depth
15), and the same value nested to depth 16 contributes nothing. -/
theorem C6_witness :
    _traverse_json (fun _ => []) (.str (S "ten chars!")) 0 = [] ∧
    _traverse_json (fun _ => []) (.str (S "a3f9c2e8-1b4d-4f6a-9e2b-7c8d0f1a2b3c")) 0 = [] ∧
    _traverse_json (fun _ => [])
      (.str (S "the carrier billing configuration guide.")) 0 =
      S "the carrier billing configuration guide." ∧
    (S "the carrier billing configuration guide.").length = 40 ∧
    _traverse_json (fun _ => [])
      (nestArr 15 (.str (S "the carrier billing configuration guide."))) 0 =
      S "the carrier billing configuration guide." ∧
    _traverse_json (fun _ => [])
      (nestArr 16 (.str (S "the carrier billing configuration guide."))) 0 = [] ∧
    _traverse_json (fun _ => [])
      (nestObj 16 (.str (S "the carrier billing configuration guide."))) 0 = [] ∧
    _traverse_json (fun _ => []) (.bool true) 16 = [] := by
  refine ⟨C6_structured_data_extractor.1 _ _ 0 (by decide),
    C6_structured_data_extractor.2.1 _ _ 0 (by decide), ?keep, by decide, ?nest, ?cap, ?capo, ?deep⟩
  case keep =>
    exact C6_structured_data_extractor.2.2.1 _ _ 0 (by decide) (by decide) (by decide)
      (by decide) (by decide) (by decide)
  case nest =>
    rw [C6_structured_data_extractor.2.2.2.2.1 _ _ 15 0]
    exact C6_structured_data_extractor.2.2.1 _ _ 15 (by decide) (by decide) (by decide)
      (by decide) (by decide) (by decide)
  case cap => exact C6_structured_data_extractor.2.2.2.2.2.2.1 _ _
  case capo => exact C6_structured_data_extractor.2.2.2.2.2.2.2 _ _
  case deep => exact C6_structured_data_extractor.2.2.2.1 _ _ 16 (by omega)

/-! ## Orchestrator short-circuit and rendering fallback (claims C1, C2) -/

theorem content2_stripLen_mono (d : List Node) (oc : Str) :
    (pyStrip (content1 d)).length ≤ (pyStrip (content2 d oc)).length := by
  unfold content2
  by_cases hc : (pyStrip (content1 d)).length < 200 ∧
      (pyStrip oc).length > (pyStrip (content1 d)).length
  · rw [if_pos hc]
    omega
  · rw [if_neg hc]

theorem content3_stripLen_mono (pg : Str → Str) (d : List Node) (oc : Str) :
    (pyStrip (content2 d oc)).length ≤ (pyStrip (content3 pg d oc)).length := by
  unfold content3
  by_cases hc : (pyStrip (content2 d oc)).length < 200
  · rw [if_pos hc]
    by_cases hj : (pyStrip (_extract_json_content pg d)).length >
        (pyStrip (content2 d oc)).length
    · rw [if_pos hj]
      omega
    · rw [if_neg hj]
  · rw [if_neg hc]

/-- C1: when the Plain Text Extraction result already has trimmed length at
least 200, `fetch_page` returns exactly that output with
`usedRendering=false`, and neither the OpenAPI stage, nor the embedded-JSON
stage, nor the rendering collaborator is invoked. -/
theorem C1_static_short_circuit (pg : Str → Str) (d : List Node) (oc : Str)
    (sb : Option Str) (render : RenderOracle)
    (h : 200 ≤ (pyStrip (_extract_text d)).length) :
    fetch_page pg d oc sb render =
      (Except.ok ⟨_extract_text d, false⟩, ⟨false, false, false⟩) := by
  have h1 : ¬ ((pyStrip (content1 d)).length < 200) := by
    unfold content1
    omega
  have hc2 : content2 d oc = content1 d := by
    unfold content2
    rw [if_neg (fun hab => h1 hab.1)]
  have hc3 : content3 pg d oc = content1 d := by
    unfold content3
    rw [hc2]
    rw [if_neg h1]
  unfold fetch_page
  simp only [hc2, hc3]
  rw [if_neg h1]
  have hd1 : decide ((pyStrip (content1 d)).length < 200) = false := by
    simp [h1]
  rw [hd1]
  rfl

/-- C2: when strategies 2-4 leave the trimmed content below 200 characters,
then with a rendering credential configured (a non-empty key, since
`if sb_key:` is string truthiness) and the render succeeding, the rendering
collaborator is invoked and its re-extracted text replaces the content
unconditionally with `usedRendering=true`; with no credential configured
(the variable unset or set to the empty, hence falsy, string) no rendering
call is made, the content stands, and `usedRendering=false`. -/
theorem C2_render_last_resort (pg : Str → Str) (d : List Node) (oc : Str)
    (render : RenderOracle)
    (h : (pyStrip (content3 pg d oc)).length < 200) :
    (∀ k : Str, k ≠ [] → render.status = 200 →
      fetch_page pg d oc (some k) render =
        (Except.ok ⟨_extract_text render.doc, true⟩, ⟨true, true, true⟩)) ∧
    (∀ sb : Option Str, envTruthy sb = false →
      fetch_page pg d oc sb render =
        (Except.ok ⟨content3 pg d oc, false⟩, ⟨true, true, false⟩)) := by
  have h2 : (pyStrip (content2 d oc)).length < 200 := by
    have := content3_stripLen_mono pg d oc
    omega
  have h1 : (pyStrip (content1 d)).length < 200 := by
    have := content2_stripLen_mono d oc
    omega
  have hd1 : decide ((pyStrip (content1 d)).length < 200) = true := by simp [h1]
  have hd2 : decide ((pyStrip (content2 d oc)).length < 200) = true := by simp [h2]
  constructor
  · intro k hk hst
    have he : envTruthy (some k) = true := by
      cases k with
      | nil => exact absurd rfl hk
      | cons a as => rfl
    unfold fetch_page
    simp only [hd1, hd2]
    rw [if_pos h, if_pos he]
    unfold _scrapingbee_fetch
    rw [hst]
    rfl
  · intro sb hsb
    have hne : ¬ (envTruthy sb = true) := by simp [hsb]
    unfold fetch_page
    simp only [hd1, hd2]
    rw [if_pos h, if_neg hne]

/-- C1 witness: a page whose `main` landmark carries 200 visible characters
short-circuits the pipeline. -/
theorem C1_witness :
    200 ≤ (pyStrip (_extract_text
      [Node.elem (S "main") [] [Node.text (List.replicate 200 'a')]])).length ∧
    fetch_page (fun _ => []) [Node.elem (S "main") [] [Node.text (List.replicate 200 'a')]]
      (S "spec text") (some (S "sb-key")) ⟨200, []⟩ =
      (Except.ok ⟨_extract_text [Node.elem (S "main") [] [Node.text (List.replicate 200 'a')]],
        false⟩, ⟨false, false, false⟩) := by
  refine ⟨by decide, ?_⟩
  exact C1_static_short_circuit (fun _ => []) _ (S "spec text") (some (S "sb-key"))
    ⟨200, []⟩ (by decide)

/-- C2 witness: an empty page with a configured (non-empty) key renders,
while the same page with the key unset, or set to the falsy empty string,
keeps its content un-rendered. -/
theorem C2_witness :
    (pyStrip (content3 (fun _ => []) [] [])).length < 200 ∧
    fetch_page (fun _ => []) [] [] (some (S "sb-key")) ⟨200, [Node.text (S "rendered")]⟩ =
      (Except.ok ⟨_extract_text [Node.text (S "rendered")], true⟩, ⟨true, true, true⟩) ∧
    fetch_page (fun _ => []) [] [] (some []) ⟨200, [Node.text (S "rendered")]⟩ =
      (Except.ok ⟨content3 (fun _ => []) [] [], false⟩, ⟨true, true, false⟩) ∧
    fetch_page (fun _ => []) [] [] none ⟨200, [Node.text (S "rendered")]⟩ =
      (Except.ok ⟨content3 (fun _ => []) [] [], false⟩, ⟨true, true, false⟩) := by
  refine ⟨by decide, ?_, ?_, ?_⟩
  · exact (C2_render_last_resort (fun _ => []) [] [] ⟨200, [Node.text (S "rendered")]⟩
      (by decide)).1 (S "sb-key") (by decide) rfl
  · exact (C2_render_last_resort (fun _ => []) [] [] ⟨200, [Node.text (S "rendered")]⟩
      (by decide)).2 (some []) (by decide)
  · exact (C2_render_last_resort (fun _ => []) [] [] ⟨200, [Node.text (S "rendered")]⟩
      (by decide)).2 none (by decide)

/-! ## Response Parser (claims C8, C9) -/

/-- C8 counterexample: the input `"5"` contains no JSON object (no brace at
all), yet the Response Parser does not signal a parse failure — the direct
`json.loads` pass returns the bare value 5. -/
theorem C8_counterexample :
    containsChar (S "5") '\x7b' = false ∧ _parse_ai_json (S "5") = some (.num 5) :=
  ⟨rfl, rfl⟩

/-- C8 (amended): the Response Parser proceeds in order — it strips a fenced
code block if present, attempts a direct JSON parse of the (stripped) text,
on failure attempts the first greedily-located brace span, and fails only
when both parses fail; a fenced JSON object and a JSON object preceded by
prose both parse to that object; and an input on which the direct parse
fails and that contains no parseable brace span yields a parse failure (an
input with no JSON object can still succeed as a bare JSON literal, e.g.
`"5"`). -/
theorem C8_response_parsing :
    (∀ (raw t : Str) (v : Json), fenceExtract (pyStrip raw) = some t →
      pyJsonLoads t = some v → _parse_ai_json raw = some v) ∧
    (∀ (raw b : Str) (v : Json), fenceExtract (pyStrip raw) = none →
      pyJsonLoads (pyStrip raw) = none → braceSpan (pyStrip raw) = some b →
      pyJsonLoads b = some v → _parse_ai_json raw = some v) ∧
    (∀ raw : Str, fenceExtract (pyStrip raw) = none →
      pyJsonLoads (pyStrip raw) = none → braceSpan (pyStrip raw) = none →
      _parse_ai_json raw = none) ∧
    (∀ raw b : Str, fenceExtract (pyStrip raw) = none →
      pyJsonLoads (pyStrip raw) = none → braceSpan (pyStrip raw) = some b →
      pyJsonLoads b = none → _parse_ai_json raw = none) ∧
    (∀ raw t : Str, fenceExtract (pyStrip raw) = some t →
      pyJsonLoads t = none → braceSpan t = none → _parse_ai_json raw = none) ∧
    (∀ raw t b : Str, fenceExtract (pyStrip raw) = some t →
      pyJsonLoads t = none → braceSpan t = some b → pyJsonLoads b = none →
      _parse_ai_json raw = none) ∧
    _parse_ai_json (S "```json\n\x7b\"supported\": true, \"platform\": \"X\"\x7d\n```") =
      some (.obj [(S "supported", .bool true), (S "platform", .str (S "X"))]) ∧
    _parse_ai_json (S "Here is the result: \x7b\"a\": 1\x7d thanks") =
      some (.obj [(S "a", .num 1)]) ∧
    _parse_ai_json (S "no json here") = none := by
  refine ⟨?_, ?_, ?_, ?_, ?_, ?_, rfl, rfl, rfl⟩
  · intro raw t v hf hl
    unfold _parse_ai_json
    simp only [hf, hl]
  · intro raw b v hf hl hb hlb
    unfold _parse_ai_json
    simp only [hf, hl, hb, hlb]
  · intro raw hf hl hb
    unfold _parse_ai_json
    simp only [hf, hl, hb]
  · intro raw b hf hl hb hlb
    unfold _parse_ai_json
    simp only [hf, hl, hb, hlb]
  · intro raw t hf hl hb
    unfold _parse_ai_json
    simp only [hf, hl, hb]
  · intro raw t b hf hl hb hlb
    unfold _parse_ai_json
    simp only [hf, hl, hb, hlb]

/-- C8 witness: the amended theorem applied at the fenced reply, at the
prose-wrapped reply, and at an unparseable reply. -/
theorem C8_witness :
    _parse_ai_json (S "```json\n\x7b\"ok\": false\x7d\n```") =
      some (.obj [(S "ok", .bool false)]) ∧
    _parse_ai_json (S "Sure! \x7b\"n\": 2\x7d") = some (.obj [(S "n", .num 2)]) ∧
    _parse_ai_json (S "sorry, nothing") = none := by
  refine ⟨C8_response_parsing.1 _ (S "\x7b\"ok\": false\x7d") _ rfl rfl,
    C8_response_parsing.2.1 _ (S "\x7b\"n\": 2\x7d") _ rfl rfl rfl rfl,
    C8_response_parsing.2.2.1 _ rfl rfl rfl⟩

/-- C9: whenever the Response Parser signals total parse failure on the
summarization collaborator's raw reply, the api handler (and likewise the
dev server, whose parse is a bare `json.loads`) responds 200 with
`supported=true` and the entire raw reply as the guide — never an error or
an unsupported result. -/
theorem C9_parse_failure_is_supported (url : Str) (uj : Bool) (raw : Str) :
    (_parse_ai_json raw = none →
      respond_with_ai url uj raw = Except.ok (200, .obj [ (S "guide", .str raw),
        (S "source_url", .str url), (S "supported", .bool true),
        (S "used_js", .bool uj) ])) ∧
    (pyJsonLoads raw = none →
      dev_respond url raw = Except.ok (200, .obj [ (S "guide", .str raw),
        (S "source_url", .str url), (S "supported", .bool true) ])) := by
  constructor
  · intro h
    unfold respond_with_ai
    simp only [h]
  · intro h
    unfold dev_respond
    simp only [h]

/-- C9 witness: a completely unparseable reply is presented as a supported
guide by both handlers. -/
theorem C9_witness :
    respond_with_ai (S "https://example.com") false (S "totally unparseable reply") =
      Except.ok (200, .obj [ (S "guide", .str (S "totally unparseable reply")),
        (S "source_url", .str (S "https://example.com")), (S "supported", .bool true),
        (S "used_js", .bool false) ]) ∧
    dev_respond (S "https://example.com") (S "totally unparseable reply") =
      Except.ok (200, .obj [ (S "guide", .str (S "totally unparseable reply")),
        (S "source_url", .str (S "https://example.com")),
        (S "supported", .bool true) ]) :=
  ⟨(C9_parse_failure_is_supported _ false _).1 rfl,
   (C9_parse_failure_is_supported (S "https://example.com") false _).2 rfl⟩

/-! ## OpenAPI relevance filter (claim C5) -/

theorem py_bind_err' {α β : Type} (e : Unit) (f : α → Py β) :
    ((Except.error e : Py α) >>= f) = Except.error e := rfl

theorem py_bind_ok_inv {α β : Type} (m : Py α) (f : α → Py β) (b : β)
    (h : (m >>= f) = Except.ok b) : ∃ a, m = Except.ok a ∧ f a = Except.ok b := by
  cases m with
  | error e => rw [py_bind_err'] at h; exact absurd h (by simp)
  | ok a => exact ⟨a, rfl, h⟩

theorem containsSub_iff (hay pat : Str) : containsSub hay pat = true ↔ pat <:+: hay := by
  unfold containsSub
  rw [List.any_eq_true]
  constructor
  · rintro ⟨t, ht, hp⟩
    rw [List.mem_tails] at ht
    rw [List.isPrefixOf_iff_prefix] at hp
    exact List.infix_iff_prefix_suffix.mpr ⟨t, hp, ht⟩
  · intro h
    obtain ⟨t, hp, ht⟩ := List.infix_iff_prefix_suffix.mp h
    exact ⟨t, (List.mem_tails _ _).mpr ht, List.isPrefixOf_iff_prefix.mpr hp⟩

theorem kwSearch_of_billing (path : Str) (h : (S "billing") <:+: path) :
    kwSearch path = true := by
  unfold kwSearch
  have h2 : (S "billing").map Char.toLower <:+: path.map Char.toLower :=
    List.IsInfix.map Char.toLower h
  have h4 : (S "bill") <:+: (S "billing").map Char.toLower := by decide
  have hb : (S "bill") <:+: lowerStr path := by
    unfold lowerStr
    exact h4.trans h2
  rw [List.any_eq_true]
  refine ⟨S "bill", by decide, ?_⟩
  show kwPatSearch (S "bill") (lowerStr path) = true
  unfold kwPatSearch
  rw [if_neg (by decide), if_neg (by decide)]
  rw [containsSub_iff]
  exact hb

theorem foldlM_append_ok {α β : Type} (g : α → Py (List β)) :
    ∀ (l : List α) (acc out : List β),
      l.foldlM (fun a x => do
        let es ← g x
        Except.ok (a ++ es)) acc = Except.ok out →
      (∀ b ∈ acc, b ∈ out) ∧ (∀ x ∈ l, ∃ r, g x = Except.ok r ∧ ∀ b ∈ r, b ∈ out) := by
  intro l
  induction l with
  | nil =>
    intro acc out h
    have hh : acc = out := by
      have h2 : (Except.ok acc : Py (List β)) = Except.ok out := h
      injection h2
    subst hh
    exact ⟨fun b hb => hb, by simp⟩
  | cons x xs ih =>
    intro acc out h
    rw [List.foldlM_cons] at h
    cases hg : g x with
    | error e =>
        rw [hg] at h
        rw [py_bind_err'] at h
        rw [py_bind_err'] at h
        exact absurd h (by simp)
    | ok es =>
        rw [hg, py_bind_ok, py_bind_ok] at h
        obtain ⟨hacc, hall⟩ := ih (acc ++ es) out h
        refine ⟨fun b hb => hacc b (List.mem_append_left _ hb), ?_⟩
        intro x' hx'
        rcases List.mem_cons.mp hx' with h1 | h2
        · subst h1
          exact ⟨es, hg, fun b hb => hacc b (List.mem_append_right _ hb)⟩
        · exact hall x' h2

theorem foldlM_option_ok {α β : Type} (g : α → Py (Option β))
    (step : List β → α → Py (List β))
    (hsome : ∀ (a : List β) (x : α) (e : β), g x = Except.ok (some e) →
      step a x = Except.ok (a ++ [e]))
    (hnone : ∀ (a : List β) (x : α), g x = Except.ok none → step a x = Except.ok a)
    (herr : ∀ (a : List β) (x : α), g x = Except.error () → step a x = Except.error ()) :
    ∀ (l : List α) (acc out : List β),
      l.foldlM step acc = Except.ok out →
      (∀ b ∈ acc, b ∈ out) ∧
      (∀ x ∈ l, ∃ r, g x = Except.ok r ∧ ∀ e, r = some e → e ∈ out) := by
  intro l
  induction l with
  | nil =>
    intro acc out h
    have hh : acc = out := by
      have h2 : (Except.ok acc : Py (List β)) = Except.ok out := h
      injection h2
    subst hh
    exact ⟨fun b hb => hb, by simp⟩
  | cons x xs ih =>
    intro acc out h
    rw [List.foldlM_cons] at h
    cases hg : g x with
    | error e =>
        cases e
        rw [herr acc x hg] at h
        rw [py_bind_err'] at h
        exact absurd h (by simp)
    | ok r =>
        cases r with
        | some e =>
            rw [hsome acc x e hg, py_bind_ok] at h
            obtain ⟨hacc, hall⟩ := ih (acc ++ [e]) out h
            refine ⟨fun b hb => hacc b (List.mem_append_left _ hb), ?_⟩
            intro x' hx'
            rcases List.mem_cons.mp hx' with h1 | h2
            · subst h1
              refine ⟨some e, hg, ?_⟩
              intro e' he'
              cases he'
              exact hacc e (List.mem_append_right _ (by simp))
            · exact hall x' h2
        | none =>
            rw [hnone acc x hg, py_bind_ok] at h
            obtain ⟨hacc, hall⟩ := ih acc out h
            refine ⟨hacc, ?_⟩
            intro x' hx'
            rcases List.mem_cons.mp hx' with h1 | h2
            · subst h1
              exact ⟨none, hg, fun e' he' => by cases he'⟩
            · exact hall x' h2

theorem mem_joinSep_infix (sep : Str) :
    ∀ (l : List Str) (a : Str), a ∈ l → a <:+: joinSep sep l := by
  intro l
  induction l with
  | nil => intro a ha; simp at ha
  | cons x xs ih =>
    intro a ha
    cases xs with
    | nil =>
        simp at ha
        subst ha
        exact List.infix_refl _
    | cons y ys =>
        rw [joinSep]
        rcases List.mem_cons.mp ha with h1 | h2
        · subst h1
          have : a ++ sep ++ joinSep sep (y :: ys) = a ++ (sep ++ joinSep sep (y :: ys)) := by
            simp [List.append_assoc]
          rw [this]
          exact (List.prefix_append _ _).isInfix
        · have hi := ih a h2
          have hs : joinSep sep (y :: ys) <:+ x ++ sep ++ joinSep sep (y :: ys) :=
            List.suffix_append _ _
          exact hi.trans hs.isInfix

theorem entryForMethod_relevant (spec : Json) (path method : Str)
    (dfs : List (Str × Json)) (hx : ¬ (S "x-").isPrefixOf method)
    (ro : Option Str)
    (h : entryForMethod spec true path method (.obj dfs) = Except.ok ro) :
    ∃ e, ro = some e ∧ entryBase method path <+: e := by
  unfold entryForMethod at h
  rw [if_neg hx] at h
  obtain ⟨c, hc, h⟩ := py_bind_ok_inv _ _ _ h
  rw [if_pos (by simp)] at h
  obtain ⟨s2, h2, h⟩ := py_bind_ok_inv _ _ _ h
  obtain ⟨s3, h3, h⟩ := py_bind_ok_inv _ _ _ h
  obtain ⟨s4, h4, h⟩ := py_bind_ok_inv _ _ _ h
  obtain ⟨s5, h5, h⟩ := py_bind_ok_inv _ _ _ h
  have h6 : some (entryBase method path ++
      (if pyTruthy (jGetD dfs (S "summary") (.str [])) then
        S "\nSummary: " ++ pyStr (jGetD dfs (S "summary") (.str [])) else []) ++
      s2 ++ s3 ++ s4 ++ s5) = ro := by
    injection h
  refine ⟨_, h6.symm, ?_⟩
  simp only [List.append_assoc]
  exact List.prefix_append _ _

theorem entryForMethod_irrelevant (spec : Json) (path method : Str)
    (dfs : List (Str × Json)) (c : Str)
    (hc : combinedFor path dfs = Except.ok c) (hpath : kwSearch path = false)
    (hcomb : kwSearch c = false) :
    entryForMethod spec (kwSearch path) path method (.obj dfs) = Except.ok none := by
  unfold entryForMethod
  by_cases hx : (S "x-").isPrefixOf method
  · rw [if_pos hx]
  · rw [if_neg hx]
    rw [hpath]
    simp only [hc, py_bind_ok]
    rw [if_neg (by simp [hcomb])]

/-- C5 (amended): under the summarizer's documented caps — at most 30
relevant endpoints and an assembled output within the 12000-character
truncation bound — every endpoint whose path contains "billing" appears in
the output (its `### METHOD path` header line occurs in the returned text);
an endpoint with no keyword-matching content anywhere (its combined
path/summary/description/tags text does not match) and a non-matching path
contributes no entry (`entryForMethod` yields `none` for it); and whenever
at least one relevant endpoint exists the output's endpoint section is the
header plus the relevant entries only (the all-endpoints fallback that
would list a non-matching endpoint is not taken).  Without the cap
hypothesis the inclusion half is false, see the counterexample. -/
theorem C5_relevance_filter (spec : Json) (out : Str) (ip : List Str)
    (pathsJ : Json) (pitems : List (Str × Json)) (rel relS : List Str)
    (h0 : _summarize_openapi spec = Except.ok out)
    (hip : infoParts spec = Except.ok ip)
    (hpaths : pyGetD spec (S "paths") (.obj []) = Except.ok pathsJ)
    (hitems : pyItems pathsJ = Except.ok pitems)
    (hrel : relevant_paths_of spec pitems = Except.ok rel)
    (hrelS : relevant_schemas_of spec = Except.ok relS)
    (hcap : rel.length ≤ 30)
    (hlen : (joinSep (S "\n")
      (ip ++ endpointSection pitems rel ++ schemaSection relS)).length ≤ 12000) :
    (∀ (path : Str) (ms : List (Str × Json)) (method : Str) (dfs : List (Str × Json)),
      (path, Json.obj ms) ∈ pitems → (method, Json.obj dfs) ∈ ms →
      (S "billing") <:+: path → ¬ (S "x-").isPrefixOf method →
      entryBase method path <:+: out) ∧
    (∀ (path2 method2 : Str) (dfs2 : List (Str × Json)) (c2 : Str),
      kwSearch path2 = false → combinedFor path2 dfs2 = Except.ok c2 →
      kwSearch c2 = false →
      entryForMethod spec (kwSearch path2) path2 method2 (.obj dfs2) = Except.ok none) ∧
    (rel ≠ [] → endpointSection pitems rel =
      (S "\n## Relevant API Endpoints (" ++ natStr rel.length ++ S " found)") :: rel) := by
  have hsp : summarize_pre spec = Except.ok (joinSep (S "\n")
      (ip ++ endpointSection pitems rel ++ schemaSection relS)) := by
    unfold summarize_pre
    simp only [hip, hpaths, hitems, hrel, hrelS, py_bind_ok]
  have hout : out = joinSep (S "\n")
      (ip ++ endpointSection pitems rel ++ schemaSection relS) := by
    unfold _summarize_openapi at h0
    rw [hsp] at h0
    simp only [Except.map] at h0
    have h1 : truncate12000 (joinSep (S "\n")
        (ip ++ endpointSection pitems rel ++ schemaSection relS)) = out := by
      injection h0
    rw [truncate_id_of_le _ hlen] at h1
    exact h1.symm
  have hsec : rel ≠ [] → endpointSection pitems rel =
      (S "\n## Relevant API Endpoints (" ++ natStr rel.length ++ S " found)") :: rel := by
    intro hne
    unfold endpointSection
    rw [if_neg (by simp [List.isEmpty_iff, hne])]
    rw [List.take_of_length_le hcap]
  refine ⟨?_, ?_, hsec⟩
  · intro path ms method dfs hpm hmd hbill hx
    have hrel2 : pitems.foldlM (fun acc pm => do
        let es ← (fun pm2 => entriesForPath spec pm2.1 pm2.2) pm
        Except.ok (acc ++ es)) [] = Except.ok rel := hrel
    have hfold := foldlM_append_ok (fun pm2 => entriesForPath spec pm2.1 pm2.2)
      pitems [] rel hrel2
    obtain ⟨-, hall⟩ := hfold
    obtain ⟨r, hr, hrmem⟩ := hall (path, Json.obj ms) hpm
    have hr2 : ms.foldlM (fun acc md => do
        match ← entryForMethod spec (kwSearch path) path md.1 md.2 with
        | some e => Except.ok (acc ++ [e])
        | none => Except.ok acc) [] = Except.ok r := hr
    have hfold2 := foldlM_option_ok
      (fun md2 => entryForMethod spec (kwSearch path) path md2.1 md2.2) _
      (fun a x e hgx => by simp only [hgx, py_bind_ok])
      (fun a x hgx => by simp only [hgx, py_bind_ok])
      (fun a x hgx => by simp only [hgx, py_bind_err'])
      ms [] r hr2
    obtain ⟨-, hall2⟩ := hfold2
    obtain ⟨ro, hro, hmem2⟩ := hall2 (method, Json.obj dfs) hmd
    have hkw : kwSearch path = true := kwSearch_of_billing path hbill
    rw [hkw] at hro
    obtain ⟨e, he, hpre⟩ := entryForMethod_relevant spec path method dfs hx ro hro
    have heinrel : e ∈ rel := hrmem e (hmem2 e (by rw [he]))
    have hrelne : rel ≠ [] := by
      intro hemp
      rw [hemp] at heinrel
      simp at heinrel
    have hparts : e ∈ ip ++ endpointSection pitems rel ++ schemaSection relS := by
      apply List.mem_append_left
      apply List.mem_append_right
      rw [hsec hrelne]
      exact List.mem_cons_of_mem _ heinrel
    have hinf : e <:+: out := by
      rw [hout]
      exact mem_joinSep_infix _ _ e hparts
    exact hpre.isInfix.trans hinf
  · intro path2 m2 dfs2 c2 hp hc hcw
    exact entryForMethod_irrelevant spec path2 m2 dfs2 c2 hc hp hcw

/-- C5 counterexample: a spec with 31 GET endpoints whose paths all contain
"billing".  The path `/billing30` contains "billing" and its endpoint is in
the spec, the summarizer succeeds, its output lists `/billing29`, but the
31st entry is cut by the 30-endpoint cap: `### GET /billing30` does not
appear in the output, so the claim as stated is false. -/
theorem C5_counterexample :
    (S "billing") <:+: (S "/billing" ++ twoDigits 30) ∧
    jLookup ((List.range 31).map (fun i =>
        (S "/billing" ++ twoDigits i, Json.obj [(S "get", Json.obj [])])))
      (S "/billing" ++ twoDigits 30) = some (Json.obj [(S "get", Json.obj [])]) ∧
    (Except.ok (okText (_summarize_openapi capSpec)) : Py Str) =
      _summarize_openapi capSpec ∧
    containsSub (okText (_summarize_openapi capSpec)) (S "\n### GET /billing29") = true ∧
    containsSub (okText (_summarize_openapi capSpec)) (S "### GET /billing30") = false := by
  refine ⟨by decide, by rfl, by rfl, by rfl, by rfl⟩

/-- C5 witness: a two-endpoint spec (one billing path, one keyword-free
path) run through the amended theorem: the billing endpoint's header
appears in the output, the keyword-free endpoint contributes no entry, and
the endpoint section is the header plus the single relevant entry. -/
theorem C5_witness :
    entryBase (S "get") (S "/billing") <:+:
      (S "\n## Relevant API Endpoints (1 found)\n\n### GET /billing") ∧
    entryForMethod (.obj [ (S "paths", .obj [
        (S "/billing", .obj [(S "get", .obj [])]),
        (S "/users", .obj [(S "get", .obj [])]) ]) ])
      (kwSearch (S "/users")) (S "/users") (S "get") (.obj []) = Except.ok none ∧
    endpointSection [(S "/billing", .obj [(S "get", .obj [])]),
        (S "/users", .obj [(S "get", .obj [])])] [ S "\n### GET /billing" ] =
      [ S "\n## Relevant API Endpoints (1 found)", S "\n### GET /billing" ] := by
  have h := C5_relevance_filter
    (.obj [ (S "paths", .obj [
        (S "/billing", .obj [(S "get", .obj [])]),
        (S "/users", .obj [(S "get", .obj [])]) ]) ])
    (S "\n## Relevant API Endpoints (1 found)\n\n### GET /billing")
    [] (.obj [ (S "/billing", .obj [(S "get", .obj [])]),
        (S "/users", .obj [(S "get", .obj [])]) ])
    [(S "/billing", .obj [(S "get", .obj [])]), (S "/users", .obj [(S "get", .obj [])])]
    [ S "\n### GET /billing" ] []
    (by rfl) (by rfl) (by rfl) (by rfl) (by rfl) (by rfl) (by decide) (by decide)
  refine ⟨?_, ?_, ?_⟩
  · exact h.1 (S "/billing") [(S "get", Json.obj [])] (S "get") []
      (List.mem_cons_self _ _) (List.mem_cons_self _ _) (by decide) (by decide)
  · exact h.2.1 (S "/users") (S "get") [] (S "/users   ") (by decide) (by rfl) (by decide)
  · have h3 := h.2.2 (by decide)
    simpa using h3
